import Mathlib

/-!
Verification of the BTL (Bradley-Terry-Luce) ranking engine of the SmashMoves
repository.  The definitions below are a shallow embedding of the JavaScript
class `BTLCalculator` (methods `calculateBTLScores`, `createMoveDataMap`,
`calculateBTLIterative`, `calculateConfidence`, `groupMovesByTier`,
`calculateBTLPrediction`).  JavaScript numbers are modelled as real numbers
(exact rationals for the integer/half-integer tallies); the insertion-ordered
JavaScript object `moveData` is modelled as an association list whose keys are
kept unique by construction, exactly as the source builds it.
-/

namespace SmashMoves

/-- A comparable item (a "move").  The engine reads nothing but its stable
identifier, so the model carries only `id`. -/
structure Move where
  id : String
deriving DecidableEq

/-- One pairwise user judgment, as consumed by the engine: the two participant
identifiers (`choice.move1.id` / `choice.move2.id` in the source), the outcome
code `userChoice` (1 = first wins, 2 = second wins, anything else = tie) and
the category key `moveType`. -/
structure Choice where
  move1 : String
  move2 : String
  userChoice : Nat
  moveType : String
deriving DecidableEq

/-- Per-move tally record held in the `moveData` map: the move object, its win
tally (ties add 0.5, hence a rational), its total comparison count and the
distinct opponents faced. -/
structure MoveEntry where
  move : Move
  wins : Rat
  total : Nat
  opponents : List String
deriving DecidableEq

/-- The `moveData` object: an insertion-ordered map from move id to entry. -/
abbrev MoveData := List (String × MoveEntry)

/-- The freshly initialized entry `{ move, wins: 0, total: 0, opponents: ∅ }`.
`Move` carries only its id, so the stored move object is `⟨k⟩`. -/
def zeroEntry (k : String) : MoveEntry :=
  { move := ⟨k⟩, wins := 0, total := 0, opponents := [] }

/-- `moveMap.has k` for the map built from the move list. -/
def hasId (moves : List Move) (k : String) : Bool :=
  moves.any fun m => m.id == k

/-- The guarded insertion used for each participant of a choice during the
initialization pass: `if (moveMap.has(id) && !moveData[id]) moveData[id] = …`. -/
def addIfAbsent (moves : List Move) (md : MoveData) (k0 : String) : MoveData :=
  if hasId moves k0 ∧ md.lookup k0 = none then md ++ [(k0, zeroEntry k0)]
  else md

/-- One step of the initialization pass of `createMoveDataMap`: a choice adds a
fresh zero entry for each of its participants that exists in the move list and
is not yet present in the map (first participant first). -/
def initStep (moves : List Move) (md : MoveData) (c : Choice) : MoveData :=
  addIfAbsent moves (addIfAbsent moves md c.move1) c.move2

/-- In-place update of the entry stored under key `k` (the JavaScript
`moveData[k].field = ...` mutations). -/
def updateEntry (md : MoveData) (k : String) (f : MoveEntry → MoveEntry) : MoveData :=
  md.map fun p => if p.1 = k then (p.1, f p.2) else p

/-- `opponents.add o` on the opponent set. -/
def addOpponent (o : String) (d : MoveEntry) : MoveEntry :=
  { d with opponents := if o ∈ d.opponents then d.opponents else d.opponents ++ [o] }

/-- One step of the tally pass of `createMoveDataMap`: if both participants are
present in the map, record the comparison (totals, opponents) and the result
(win for 1, win for 2, or half a win each on a tie); otherwise skip the
choice. -/
def tallyStep (md : MoveData) (c : Choice) : MoveData :=
  if (md.lookup c.move1).isSome ∧ (md.lookup c.move2).isSome then
    let md1 := updateEntry md c.move1 fun d => { d with total := d.total + 1 }
    let md2 := updateEntry md1 c.move2 fun d => { d with total := d.total + 1 }
    let md3 := updateEntry md2 c.move1 (addOpponent c.move2)
    let md4 := updateEntry md3 c.move2 (addOpponent c.move1)
    if c.userChoice = 1 then
      updateEntry md4 c.move1 fun d => { d with wins := d.wins + 1 }
    else if c.userChoice = 2 then
      updateEntry md4 c.move2 fun d => { d with wins := d.wins + 1 }
    else
      updateEntry (updateEntry md4 c.move1 fun d => { d with wins := d.wins + 1/2 })
        c.move2 fun d => { d with wins := d.wins + 1/2 }
  else md

/-- `createMoveDataMap`: the initialization pass over all choices followed by
the tally pass over all choices. -/
def createMoveDataMap (moves : List Move) (choices : List Choice) : MoveData :=
  choices.foldl tallyStep (choices.foldl (initStep moves) [])

/-- `calculateConfidence`: 0 for zero comparisons, otherwise the logistic
`1 / (1 + exp (-k (n - x0)))` with steepness `k = 0.5` and midpoint
`x0 = 10`. -/
noncomputable def calculateConfidence (totalComparisons : Nat) : ℝ :=
  if totalComparisons = 0 then 0
  else 1 / (1 + Real.exp (-(0.5) * ((totalComparisons : ℝ) - 10)))

/-- The per-move score seeded in `calculateBTLIterative`: win rate adjusted by
confidence for moves with data, neutral 0.5 otherwise. -/
noncomputable def seedScore (d : MoveEntry) : ℝ :=
  if d.total > 0 then
    ((d.wins : ℝ) / (d.total : ℝ)) * (0.5 + 0.5 * calculateConfidence d.total)
  else 0.5

/-- `calculateBTLIterative`: seed every entry of the map with its win-rate
score, then, when the score range is positive, min-max rescale every score to
the 0-1 range. -/
noncomputable def calculateBTLIterative (md : MoveData) : List (String × ℝ) :=
  if md.length = 0 then []
  else
    let scores := md.map fun p => (p.1, seedScore p.2)
    let vals := scores.map Prod.snd
    let maxScore : ℝ := match vals with | [] => 0 | v :: vs => vs.foldl max v
    let minScore : ℝ := match vals with | [] => 0 | v :: vs => vs.foldl min v
    if maxScore - minScore > 0 then
      scores.map fun p => (p.1, (p.2 - minScore) / (maxScore - minScore))
    else scores

/-- The JavaScript expression `btlScores[move.id] || 0.5`: a missing key or a
falsy (zero) score falls back to 0.5. -/
noncomputable def jsOrHalf (x : Option ℝ) : ℝ :=
  match x with
  | none => 0.5
  | some v => if v = 0 then 0.5 else v

/-- The per-move record returned by `calculateBTLScores` (the spread move
object is represented by its id). -/
structure Standing where
  id : String
  btlScore : ℝ
  userWins : Rat
  userTotal : Nat
  winRate : Rat
  confidence : ℝ

/-- `calculateBTLScores`: filter the choices to the requested move type,
return `[]` when none remain, otherwise build the move-data map, compute the
iterative scores and emit one standing per entry of the map. -/
noncomputable def calculateBTLScores (moves : List Move) (userChoices : List Choice)
    (moveType : String) : List Standing :=
  let typeChoices := userChoices.filter fun c => c.moveType == moveType
  if typeChoices.length = 0 then []
  else
    let moveData := createMoveDataMap moves typeChoices
    let btlScores := calculateBTLIterative moveData
    moveData.map fun p =>
      { id := p.2.move.id
        btlScore := jsOrHalf (btlScores.lookup p.1)
        userWins := p.2.wins
        userTotal := p.2.total
        winRate := if p.2.total > 0 then p.2.wins / (p.2.total : Rat) else 0
        confidence := calculateConfidence p.2.total }

/-- The record returned by `calculateBTLPrediction`. -/
structure Prediction where
  move1Score : ℝ
  move2Score : ℝ
  predictedWinner : Nat
  confidence : ℝ

/-- `calculateBTLPrediction`: normalize the two win rates (0.5 default when a
move has no data) into probabilities, predict a winner only outside the fixed
0.1 tolerance band, and attach the logistic confidence of the combined
comparison volume.  Missing tallies yield the neutral prediction. -/
noncomputable def calculateBTLPrediction (move1 move2 : String) (moveData : MoveData) :
    Prediction :=
  match moveData.lookup move1, moveData.lookup move2 with
  | some d1, some d2 =>
    let move1WinRate : ℝ := if d1.total > 0 then (d1.wins : ℝ) / (d1.total : ℝ) else 0.5
    let move2WinRate : ℝ := if d2.total > 0 then (d2.wins : ℝ) / (d2.total : ℝ) else 0.5
    let totalRate := move1WinRate + move2WinRate
    let move1Score := if totalRate > 0 then move1WinRate / totalRate else 0.5
    let move2Score := if totalRate > 0 then move2WinRate / totalRate else 0.5
    let predictedWinner : Nat :=
      if move1Score > move2Score + 0.1 then 1
      else if move2Score > move1Score + 0.1 then 2
      else 0
    { move1Score := move1Score
      move2Score := move2Score
      predictedWinner := predictedWinner
      confidence := calculateConfidence (d1.total + d2.total) }
  | _, _ => { move1Score := 0.5, move2Score := 0.5, predictedWinner := 0, confidence := 0 }

/-- An object carrying a BTL score, as consumed by `groupMovesByTier`; the
score type is abstract because the source only ever compares scores. -/
structure ScoredMove (α : Type) where
  id : String
  btlScore : α
deriving DecidableEq

/-- The six tier buckets returned by `groupMovesByTier`. -/
structure Tiers (β : Type) where
  S : List β
  A : List β
  B : List β
  C : List β
  D : List β
  F : List β
deriving DecidableEq

/-- The descending stable sort `movesWithScores.sort((a, b) => b.btlScore - a.btlScore)`. -/
def sortByScoreDesc {α : Type} [LinearOrder α] (l : List (ScoredMove α)) :
    List (ScoredMove α) :=
  l.mergeSort fun a b => decide (b.btlScore ≤ a.btlScore)

/-- One step of the forEach in `groupMovesByTier`: push the move at sorted
index `im.1` into the bucket selected by its rank percentile. -/
def tierStep {β : Type} (n : Nat) (t : Tiers β) (im : Nat × β) : Tiers β :=
  let percentile : ℚ := ((im.1 : ℚ) / (n : ℚ)) * 100
  if percentile < 10 then { t with S := t.S ++ [im.2] }
  else if percentile < 25 then { t with A := t.A ++ [im.2] }
  else if percentile < 50 then { t with B := t.B ++ [im.2] }
  else if percentile < 75 then { t with C := t.C ++ [im.2] }
  else if percentile < 90 then { t with D := t.D ++ [im.2] }
  else { t with F := t.F ++ [im.2] }

/-- `groupMovesByTier`: sort by score descending and distribute over the six
percentile buckets by sorted index. -/
def groupMovesByTier {α : Type} [LinearOrder α] (l : List (ScoredMove α)) :
    Tiers (ScoredMove α) :=
  let sorted := sortByScoreDesc l
  sorted.enum.foldl (tierStep sorted.length) ⟨[], [], [], [], [], []⟩

/-- The caller's array after `groupMovesByTier` returns: the source sorts the
argument array in place (`movesWithScores.sort(...)`), so the caller is left
holding the descending-sorted permutation, not the original order. -/
def groupMovesByTierArrayAfter {α : Type} [LinearOrder α] (l : List (ScoredMove α)) :
    List (ScoredMove α) :=
  sortByScoreDesc l

/-! ### Reference definitions

Definitions in this section restate parts of the engine in the words of the
specification (or as direct per-item formulas), to be compared with the
embedded code above. -/

/-- `k` is a participant of the choice `c`. -/
def participates (k : String) (c : Choice) : Bool :=
  c.move1 == k || c.move2 == k

/-- Both participants of a choice are identifiers of supplied moves. -/
def bothKnown (moves : List Move) (c : Choice) : Bool :=
  hasId moves c.move1 && hasId moves c.move2

/-- The win-tally contribution of a single choice to item `k`: 1 for a win,
0 for a loss, 0.5 for a tie, per participating side. -/
def winIncr (k : String) (c : Choice) : Rat :=
  (if c.move1 = k then (if c.userChoice = 1 then 1 else if c.userChoice = 2 then 0 else 1/2)
   else 0)
  + (if c.move2 = k then (if c.userChoice = 2 then 1 else if c.userChoice = 1 then 0 else 1/2)
     else 0)

/-- The total-tally contribution of a single choice to item `k`: one per
participating side. -/
def totalIncr (k : String) (c : Choice) : Nat :=
  (if c.move1 = k then 1 else 0) + (if c.move2 = k then 1 else 0)

/-- Reference win tally of item `k`: the sum of the per-choice win
contributions over the choices in which both participants are known items
(all other choices are skipped entirely). -/
def refWins (moves : List Move) (choices : List Choice) (k : String) : Rat :=
  ((choices.filter (bothKnown moves)).map (winIncr k)).sum

/-- Reference total tally of item `k`: analogous to `refWins`. -/
def refTotal (moves : List Move) (choices : List Choice) (k : String) : Nat :=
  ((choices.filter (bothKnown moves)).map (totalIncr k)).sum

/-- The win tally recorded in a move-data map for key `k` (0 when absent). -/
def winsOf (md : MoveData) (k : String) : Rat :=
  ((md.lookup k).map MoveEntry.wins).getD 0

/-- The total tally recorded in a move-data map for key `k` (0 when absent). -/
def totalOf (md : MoveData) (k : String) : Nat :=
  ((md.lookup k).map MoveEntry.total).getD 0

/-- Seed score of an entry, as the spec words it: for an item with data the
win rate times `0.5 + 0.5 · confidence(total)`, otherwise the neutral 0.5. -/
noncomputable def specSeed (d : MoveEntry) : ℝ :=
  if d.total > 0 then
    ((d.wins : ℝ) / (d.total : ℝ)) * (0.5 + 0.5 * calculateConfidence d.total)
  else 0.5

/-- The strength score as claimed by the spec: max and min are taken over the
seed scores of the items with `total > 0` only, those items are rescaled when
`max > min`, and an item with `total = 0` keeps its neutral 0.5 untouched. -/
noncomputable def specScoreClaimed (md : MoveData) (d : MoveEntry) : ℝ :=
  let scoredSeeds := (md.filter fun p => decide (p.2.total > 0)).map fun p => specSeed p.2
  if d.total = 0 then 0.5
  else
    match scoredSeeds.maximum, scoredSeeds.minimum with
    | some M, some m => if M > m then (specSeed d - m) / (M - m) else specSeed d
    | _, _ => specSeed d

/-- The strength score the code actually produces, as a direct per-item
formula: max and min over the seed scores of **all** entries of the map
(neutral 0.5 seeds included), every entry rescaled when `max > min`, and a
final score of exactly 0 reported as 0.5 (the falsy fallback). -/
noncomputable def specScoreAmended (md : MoveData) (d : MoveEntry) : ℝ :=
  let seeds := md.map fun p => specSeed p.2
  match seeds.maximum, seeds.minimum with
  | some M, some m =>
    let raw := if M > m then (specSeed d - m) / (M - m) else specSeed d
    if raw = 0 then 0.5 else raw
  | _, _ => 0.5

/-- The rank percentile of sorted index `i` among `n` items. -/
def rankPercentile (i n : Nat) : ℚ :=
  ((i : ℚ) / (n : ℚ)) * 100

/-- The tier index (0 = S, …, 5 = F) selected for rank `i` of `n`: the
percentile bands `[0,10) [10,25) [25,50) [50,75) [75,90) [90,100]`. -/
def tierOfRank (i n : Nat) : Nat :=
  if rankPercentile i n < 10 then 0
  else if rankPercentile i n < 25 then 1
  else if rankPercentile i n < 50 then 2
  else if rankPercentile i n < 75 then 3
  else if rankPercentile i n < 90 then 4
  else 5

/-- The six buckets of a tier assignment as an ordered list S, A, B, C, D, F. -/
def tierListOf {β : Type} (t : Tiers β) : List (List β) :=
  [t.S, t.A, t.B, t.C, t.D, t.F]

/-- Reference tier bucket `j` for input `l`: the members of the
score-descending sort of `l` whose rank index selects tier `j`. -/
def tierBucketRef {α : Type} [LinearOrder α] (l : List (ScoredMove α)) (j : Nat) :
    List (ScoredMove α) :=
  ((sortByScoreDesc l).enum.filter fun im =>
    decide (tierOfRank im.1 (sortByScoreDesc l).length = j)).map Prod.snd

/-! ### Association-list lemmas -/

lemma lookup_map_pair {β γ : Type} (l : List (String × β)) (f : String → β → γ) (k : String) :
    (l.map fun p => (p.1, f p.1 p.2)).lookup k = (l.lookup k).map (f k) := by
  induction l with
  | nil => simp
  | cons p l ih =>
    obtain ⟨a, b⟩ := p
    by_cases h : k = a
    · subst h; simp [List.lookup_cons]
    · have hb : (k == a) = false := beq_eq_false_iff_ne.2 h
      simp [List.lookup_cons, hb, ih]

lemma lookup_updateEntry (md : MoveData) (k' : String) (f : MoveEntry → MoveEntry)
    (k : String) :
    (updateEntry md k' f).lookup k =
      if k = k' then (md.lookup k).map f else md.lookup k := by
  induction md with
  | nil => simp [updateEntry]
  | cons p md ih =>
    obtain ⟨a, b⟩ := p
    by_cases hk : k = a
    · subst hk
      by_cases ha : k = k'
      · simp [updateEntry, ← ha, List.lookup_cons]
      · simp [updateEntry, Ne.symm ha, ha, List.lookup_cons]
    · have hb : (k == a) = false := beq_eq_false_iff_ne.2 hk
      simp only [updateEntry, List.map_cons] at ih ⊢
      by_cases ha : a = k'
      · have hkk : k ≠ k' := ha ▸ hk
        have hkk' : (k == k') = false := beq_eq_false_iff_ne.2 hkk
        simp [ha, List.lookup_cons, hkk, hkk', ih]
      · simp [ha, List.lookup_cons, hb, ih]

lemma updateEntry_keys (md : MoveData) (k' : String) (f : MoveEntry → MoveEntry) :
    (updateEntry md k' f).map Prod.fst = md.map Prod.fst := by
  induction md with
  | nil => rfl
  | cons p md ih =>
    by_cases h : p.1 = k' <;>
      simp [updateEntry, h, ih] <;>
      simpa [updateEntry] using ih

lemma mem_of_lookup_eq_some {β : Type} {l : List (String × β)} {k : String} {v : β}
    (h : l.lookup k = some v) : (k, v) ∈ l := by
  rw [List.lookup_eq_some_iff] at h
  obtain ⟨l₁, l₂, rfl, -⟩ := h
  simp

lemma lookup_of_mem_nodup {β : Type} {l : List (String × β)}
    (hnd : (l.map Prod.fst).Nodup) {k : String} {v : β} (hm : (k, v) ∈ l) :
    l.lookup k = some v := by
  induction l with
  | nil => simp at hm
  | cons p l ih =>
    obtain ⟨a, b⟩ := p
    simp only [List.map_cons, List.nodup_cons] at hnd
    rcases List.mem_cons.1 hm with h | h
    · injection h with h1 h2
      subst h1; subst h2
      simp
    · have hka : k ≠ a := by
        rintro rfl
        exact hnd.1 (List.mem_map.2 ⟨(k, v), h, rfl⟩)
      have hb : (k == a) = false := beq_eq_false_iff_ne.2 hka
      simp [List.lookup_cons, hb, ih hnd.2 h]

/-! ### Initialization-pass lemmas -/

lemma lookup_append_single {β : Type} (md : List (String × β)) (a : String) (v : β)
    (k : String) :
    (md ++ [(a, v)]).lookup k = (md.lookup k).or (if k = a then some v else none) := by
  rw [List.lookup_append]
  congr 1
  by_cases h : k = a
  · subst h; simp
  · have hb : (k == a) = false := beq_eq_false_iff_ne.2 h
    simp [List.lookup_cons, hb, h]

lemma addIfAbsent_lookup (moves : List Move) (md : MoveData) (k0 k : String) :
    (addIfAbsent moves md k0).lookup k =
      (md.lookup k).or (if hasId moves k ∧ k = k0 then some (zeroEntry k) else none) := by
  unfold addIfAbsent
  by_cases hc : hasId moves k0 ∧ md.lookup k0 = none
  · rw [if_pos hc, lookup_append_single]
    congr 1
    by_cases hk : k = k0
    · subst hk; simp [hc.1]
    · simp [hk]
  · rw [if_neg hc]
    by_cases hk : k = k0
    · subst hk
      rcases Decidable.not_and_iff_or_not.1 hc with h | h
      · simp [h]
      · rcases Option.ne_none_iff_exists'.1 h with ⟨v, hv⟩
        simp [hv]
    · simp [hk]

lemma initStep_lookup (moves : List Move) (md : MoveData) (c : Choice) (k : String) :
    (initStep moves md c).lookup k =
      (md.lookup k).or
        (if hasId moves k ∧ (k = c.move1 ∨ k = c.move2) then some (zeroEntry k) else none) := by
  unfold initStep
  rw [addIfAbsent_lookup, addIfAbsent_lookup, Option.or_assoc]
  congr 1
  by_cases hid : hasId moves k
  · by_cases h1 : k = c.move1
    · rw [if_pos ⟨hid, h1⟩, Option.or_some, if_pos ⟨hid, Or.inl h1⟩]
    · rw [if_neg fun h => h1 h.2, Option.none_or]
      by_cases h2 : k = c.move2
      · rw [if_pos ⟨hid, h2⟩, if_pos ⟨hid, Or.inr h2⟩]
      · rw [if_neg fun h => h2 h.2, if_neg fun h => h.2.elim h1 h2]
  · simp [hid]

lemma initFold_lookup (moves : List Move) :
    ∀ (cs : List Choice) (md : MoveData) (k : String),
      (cs.foldl (initStep moves) md).lookup k =
        (md.lookup k).or
          (if hasId moves k ∧ ∃ c ∈ cs, k = c.move1 ∨ k = c.move2 then
            some (zeroEntry k)
          else none)
  | [], md, k => by simp
  | c :: cs, md, k => by
    simp only [List.foldl_cons]
    rw [initFold_lookup moves cs (initStep moves md c) k, initStep_lookup, Option.or_assoc]
    congr 1
    by_cases hid : hasId moves k
    · by_cases h1 : k = c.move1 ∨ k = c.move2
      · simp [hid, h1]
      · simp only [hid, h1, true_and, and_false, if_false, Option.none_or]
        congr 1
        simp only [List.mem_cons, eq_iff_iff]
        constructor
        · rintro ⟨c', hc', hp⟩
          exact ⟨c', Or.inr hc', hp⟩
        · rintro ⟨c', hc', hp⟩
          rcases hc' with rfl | hc'
          · exact absurd hp h1
          · exact ⟨c', hc', hp⟩
    · simp [hid]

lemma addIfAbsent_keys_nodup (moves : List Move) (md : MoveData) (k0 : String)
    (hnd : (md.map Prod.fst).Nodup) :
    ((addIfAbsent moves md k0).map Prod.fst).Nodup := by
  unfold addIfAbsent
  by_cases hc : hasId moves k0 ∧ md.lookup k0 = none
  · rw [if_pos hc]
    have hk0 : k0 ∉ md.map Prod.fst := by
      intro hmem
      rcases List.mem_map.1 hmem with ⟨p, hp, hfst⟩
      have := (List.lookup_eq_none_iff.1 hc.2) p hp
      rw [← hfst] at this
      simp at this
    simp [List.nodup_append, hnd, hk0]
  · rw [if_neg hc]; exact hnd

lemma initFold_keys_nodup (moves : List Move) :
    ∀ (cs : List Choice) (md : MoveData), (md.map Prod.fst).Nodup →
      ((cs.foldl (initStep moves) md).map Prod.fst).Nodup
  | [], _, hnd => hnd
  | c :: cs, md, hnd => by
    simp only [List.foldl_cons]
    exact initFold_keys_nodup moves cs _
      (addIfAbsent_keys_nodup moves _ _ (addIfAbsent_keys_nodup moves _ _ hnd))

/-! ### Tally-pass lemmas -/

lemma tallyStep_keys (md : MoveData) (c : Choice) :
    (tallyStep md c).map Prod.fst = md.map Prod.fst := by
  unfold tallyStep
  by_cases hc : (md.lookup c.move1).isSome ∧ (md.lookup c.move2).isSome
  · rw [if_pos hc]
    by_cases u1 : c.userChoice = 1 <;> by_cases u2 : c.userChoice = 2 <;>
      simp [u1, u2, updateEntry_keys]
  · rw [if_neg hc]

lemma lookup_isSome_iff_mem_keys {β : Type} (l : List (String × β)) (k : String) :
    (l.lookup k).isSome ↔ k ∈ l.map Prod.fst := by
  rw [List.lookup_isSome_iff]
  simp only [List.mem_map, beq_iff_eq]
  constructor
  · rintro ⟨p, hp, rfl⟩
    exact ⟨p, hp, rfl⟩
  · rintro ⟨p, hp, rfl⟩
    exact ⟨p, hp, rfl⟩

lemma tallyStep_lookup_isSome (md : MoveData) (c : Choice) (k : String) :
    ((tallyStep md c).lookup k).isSome = (md.lookup k).isSome := by
  have h := tallyStep_keys md c
  have h1 := lookup_isSome_iff_mem_keys (tallyStep md c) k
  have h2 := lookup_isSome_iff_mem_keys md k
  rw [h] at h1
  cases hx : (md.lookup k).isSome
  · rw [hx] at h2
    simp only [Bool.false_eq_true, false_iff] at h2
    rw [Bool.eq_false_iff]
    intro hx'
    exact h2 (h1.1 hx')
  · rw [hx] at h2
    exact h1.2 (h2.1 rfl)

lemma tallyStep_winsOf (md : MoveData) (c : Choice) (k : String) :
    winsOf (tallyStep md c) k =
      winsOf md k +
        (if (md.lookup c.move1).isSome ∧ (md.lookup c.move2).isSome then winIncr k c
         else 0) := by
  by_cases hc : (md.lookup c.move1).isSome ∧ (md.lookup c.move2).isSome
  case neg =>
    unfold tallyStep
    rw [if_neg hc, if_neg hc]
    simp
  case pos =>
    rw [if_pos hc]
    unfold tallyStep
    rw [if_pos hc]
    cases hd : md.lookup k with
    | none =>
      have e1 : k ≠ c.move1 := by rintro rfl; rw [hd] at hc; simp at hc
      have e2 : k ≠ c.move2 := by rintro rfl; rw [hd] at hc; simp at hc
      have e1' : c.move1 ≠ k := Ne.symm e1
      have e2' : c.move2 ≠ k := Ne.symm e2
      split_ifs <;>
        simp [winsOf, lookup_updateEntry, e1, e2, e1', e2', hd, winIncr]
    | some d =>
      by_cases e1 : k = c.move1
      · subst e1
        by_cases e2 : c.move1 = c.move2
        · split_ifs <;> simp_all [winsOf, lookup_updateEntry, winIncr, addOpponent] <;> ring
        · have e2' : c.move2 ≠ c.move1 := Ne.symm e2
          split_ifs <;> simp_all [winsOf, lookup_updateEntry, winIncr, addOpponent] <;> ring
      · by_cases e2 : k = c.move2
        · subst e2
          have e1' : c.move1 ≠ c.move2 := Ne.symm e1
          split_ifs <;> simp_all [winsOf, lookup_updateEntry, winIncr, addOpponent] <;> ring
        · have e1' : c.move1 ≠ k := Ne.symm e1
          have e2' : c.move2 ≠ k := Ne.symm e2
          split_ifs <;> simp_all [winsOf, lookup_updateEntry, winIncr, addOpponent] <;> ring

lemma tallyStep_totalOf (md : MoveData) (c : Choice) (k : String) :
    totalOf (tallyStep md c) k =
      totalOf md k +
        (if (md.lookup c.move1).isSome ∧ (md.lookup c.move2).isSome then totalIncr k c
         else 0) := by
  by_cases hc : (md.lookup c.move1).isSome ∧ (md.lookup c.move2).isSome
  case neg =>
    unfold tallyStep
    rw [if_neg hc, if_neg hc]
    simp
  case pos =>
    rw [if_pos hc]
    unfold tallyStep
    rw [if_pos hc]
    cases hd : md.lookup k with
    | none =>
      have e1 : k ≠ c.move1 := by rintro rfl; rw [hd] at hc; simp at hc
      have e2 : k ≠ c.move2 := by rintro rfl; rw [hd] at hc; simp at hc
      have e1' : c.move1 ≠ k := Ne.symm e1
      have e2' : c.move2 ≠ k := Ne.symm e2
      split_ifs <;>
        simp [totalOf, lookup_updateEntry, e1, e2, e1', e2', hd, totalIncr]
    | some d =>
      by_cases e1 : k = c.move1
      · subst e1
        by_cases e2 : c.move1 = c.move2
        · split_ifs <;> simp_all [totalOf, lookup_updateEntry, totalIncr, addOpponent]
        · have e2' : c.move2 ≠ c.move1 := Ne.symm e2
          split_ifs <;> simp_all [totalOf, lookup_updateEntry, totalIncr, addOpponent]
      · by_cases e2 : k = c.move2
        · subst e2
          have e1' : c.move1 ≠ c.move2 := Ne.symm e1
          split_ifs <;> simp_all [totalOf, lookup_updateEntry, totalIncr, addOpponent]
        · have e1' : c.move1 ≠ k := Ne.symm e1
          have e2' : c.move2 ≠ k := Ne.symm e2
          split_ifs <;> simp_all [totalOf, lookup_updateEntry, totalIncr, addOpponent]

lemma tallyStep_moveProj (md : MoveData) (c : Choice) (k : String) :
    ((tallyStep md c).lookup k).map MoveEntry.move = (md.lookup k).map MoveEntry.move := by
  by_cases hc : (md.lookup c.move1).isSome ∧ (md.lookup c.move2).isSome
  case neg =>
    unfold tallyStep
    rw [if_neg hc]
  case pos =>
    unfold tallyStep
    rw [if_pos hc]
    cases hd : md.lookup k with
    | none =>
      have e1 : k ≠ c.move1 := by rintro rfl; rw [hd] at hc; simp at hc
      have e2 : k ≠ c.move2 := by rintro rfl; rw [hd] at hc; simp at hc
      split_ifs <;>
        simp [lookup_updateEntry, e1, e2, hd]
    | some d =>
      by_cases e1 : k = c.move1
      · subst e1
        by_cases e2 : c.move1 = c.move2
        · split_ifs <;> simp_all [lookup_updateEntry, addOpponent]
        · have e2' : c.move2 ≠ c.move1 := Ne.symm e2
          split_ifs <;> simp_all [lookup_updateEntry, addOpponent]
      · by_cases e2 : k = c.move2
        · subst e2
          have e1' : c.move1 ≠ c.move2 := Ne.symm e1
          split_ifs <;> simp_all [lookup_updateEntry, addOpponent]
        · have e1' : c.move1 ≠ k := Ne.symm e1
          have e2' : c.move2 ≠ k := Ne.symm e2
          split_ifs <;> simp_all [lookup_updateEntry, addOpponent]


lemma tallyFold_keys :
    ∀ (cs : List Choice) (md : MoveData),
      (cs.foldl tallyStep md).map Prod.fst = md.map Prod.fst
  | [], _ => rfl
  | c :: cs, md => by
    simp only [List.foldl_cons]
    rw [tallyFold_keys cs (tallyStep md c), tallyStep_keys]

lemma tallyFold_winsOf :
    ∀ (cs : List Choice) (md : MoveData) (k : String),
      winsOf (cs.foldl tallyStep md) k =
        winsOf md k +
          ((cs.filter fun c =>
              (md.lookup c.move1).isSome && (md.lookup c.move2).isSome).map
            (winIncr k)).sum
  | [], md, k => by simp
  | c :: cs, md, k => by
    simp only [List.foldl_cons, List.filter_cons]
    rw [tallyFold_winsOf cs (tallyStep md c) k]
    have hfilter : (cs.filter fun c' => ((tallyStep md c).lookup c'.move1).isSome &&
        ((tallyStep md c).lookup c'.move2).isSome) =
        cs.filter fun c' => (md.lookup c'.move1).isSome && (md.lookup c'.move2).isSome := by
      apply List.filter_congr
      intro c' _
      rw [tallyStep_lookup_isSome, tallyStep_lookup_isSome]
    rw [hfilter, tallyStep_winsOf]
    by_cases hc : (md.lookup c.move1).isSome ∧ (md.lookup c.move2).isSome
    · have hb : ((md.lookup c.move1).isSome && (md.lookup c.move2).isSome) = true := by
        simp [hc.1, hc.2]
      rw [if_pos hc, hb]
      simp [add_assoc]
    · have hb : ((md.lookup c.move1).isSome && (md.lookup c.move2).isSome) = false := by
        rcases Decidable.not_and_iff_or_not.1 hc with h | h <;> simp [h] <;>
          simp [Bool.eq_false_iff, h]
      rw [if_neg hc, hb]
      simp

lemma tallyFold_totalOf :
    ∀ (cs : List Choice) (md : MoveData) (k : String),
      totalOf (cs.foldl tallyStep md) k =
        totalOf md k +
          ((cs.filter fun c =>
              (md.lookup c.move1).isSome && (md.lookup c.move2).isSome).map
            (totalIncr k)).sum
  | [], md, k => by simp
  | c :: cs, md, k => by
    simp only [List.foldl_cons, List.filter_cons]
    rw [tallyFold_totalOf cs (tallyStep md c) k]
    have hfilter : (cs.filter fun c' => ((tallyStep md c).lookup c'.move1).isSome &&
        ((tallyStep md c).lookup c'.move2).isSome) =
        cs.filter fun c' => (md.lookup c'.move1).isSome && (md.lookup c'.move2).isSome := by
      apply List.filter_congr
      intro c' _
      rw [tallyStep_lookup_isSome, tallyStep_lookup_isSome]
    rw [hfilter, tallyStep_totalOf]
    by_cases hc : (md.lookup c.move1).isSome ∧ (md.lookup c.move2).isSome
    · have hb : ((md.lookup c.move1).isSome && (md.lookup c.move2).isSome) = true := by
        simp [hc.1, hc.2]
      rw [if_pos hc, hb]
      simp [add_assoc]
    · have hb : ((md.lookup c.move1).isSome && (md.lookup c.move2).isSome) = false := by
        rcases Decidable.not_and_iff_or_not.1 hc with h | h <;> simp [h] <;>
          simp [Bool.eq_false_iff, h]
      rw [if_neg hc, hb]
      simp

lemma tallyFold_moveProj :
    ∀ (cs : List Choice) (md : MoveData) (k : String),
      ((cs.foldl tallyStep md).lookup k).map MoveEntry.move =
        (md.lookup k).map MoveEntry.move
  | [], _, _ => rfl
  | c :: cs, md, k => by
    simp only [List.foldl_cons]
    rw [tallyFold_moveProj cs (tallyStep md c) k, tallyStep_moveProj]

lemma tallyFold_lookup_isSome :
    ∀ (cs : List Choice) (md : MoveData) (k : String),
      ((cs.foldl tallyStep md).lookup k).isSome = (md.lookup k).isSome
  | [], _, _ => rfl
  | c :: cs, md, k => by
    simp only [List.foldl_cons]
    rw [tallyFold_lookup_isSome cs (tallyStep md c) k, tallyStep_lookup_isSome]

/-! ### Characterization of `createMoveDataMap` -/

lemma initFold_nil_lookup (moves : List Move) (cs : List Choice) (k : String) :
    (cs.foldl (initStep moves) []).lookup k =
      if hasId moves k ∧ ∃ c ∈ cs, k = c.move1 ∨ k = c.move2 then some (zeroEntry k)
      else none := by
  simpa using initFold_lookup moves cs [] k

lemma cmdm_keys_nodup (moves : List Move) (cs : List Choice) :
    ((createMoveDataMap moves cs).map Prod.fst).Nodup := by
  unfold createMoveDataMap
  rw [tallyFold_keys]
  exact initFold_keys_nodup moves cs [] (by simp)

lemma cmdm_lookup_isSome_iff (moves : List Move) (cs : List Choice) (k : String) :
    ((createMoveDataMap moves cs).lookup k).isSome ↔
      hasId moves k ∧ ∃ c ∈ cs, k = c.move1 ∨ k = c.move2 := by
  unfold createMoveDataMap
  rw [tallyFold_lookup_isSome, initFold_nil_lookup]
  split_ifs with h <;> simp [h]

lemma cmdm_winsOf (moves : List Move) (cs : List Choice) (k : String) :
    winsOf (createMoveDataMap moves cs) k = refWins moves cs k := by
  unfold createMoveDataMap refWins
  rw [tallyFold_winsOf]
  have h0 : winsOf (cs.foldl (initStep moves) []) k = 0 := by
    rw [winsOf, initFold_nil_lookup]
    split_ifs <;> simp [zeroEntry]
  rw [h0, zero_add]
  have hfc : (cs.filter fun c =>
      ((cs.foldl (initStep moves) []).lookup c.move1).isSome &&
        ((cs.foldl (initStep moves) []).lookup c.move2).isSome) =
      cs.filter (bothKnown moves) := by
    apply List.filter_congr
    intro c hc
    rw [initFold_nil_lookup, initFold_nil_lookup]
    have hw1 : ∃ c' ∈ cs, c.move1 = c'.move1 ∨ c.move1 = c'.move2 := ⟨c, hc, Or.inl rfl⟩
    have hw2 : ∃ c' ∈ cs, c.move2 = c'.move1 ∨ c.move2 = c'.move2 := ⟨c, hc, Or.inr rfl⟩
    by_cases h1 : hasId moves c.move1 <;> by_cases h2 : hasId moves c.move2 <;>
      simp [bothKnown, h1, h2, hw1, hw2]
  rw [hfc]

lemma cmdm_totalOf (moves : List Move) (cs : List Choice) (k : String) :
    totalOf (createMoveDataMap moves cs) k = refTotal moves cs k := by
  unfold createMoveDataMap refTotal
  rw [tallyFold_totalOf]
  have h0 : totalOf (cs.foldl (initStep moves) []) k = 0 := by
    rw [totalOf, initFold_nil_lookup]
    split_ifs <;> simp [zeroEntry]
  rw [h0, zero_add]
  have hfc : (cs.filter fun c =>
      ((cs.foldl (initStep moves) []).lookup c.move1).isSome &&
        ((cs.foldl (initStep moves) []).lookup c.move2).isSome) =
      cs.filter (bothKnown moves) := by
    apply List.filter_congr
    intro c hc
    rw [initFold_nil_lookup, initFold_nil_lookup]
    have hw1 : ∃ c' ∈ cs, c.move1 = c'.move1 ∨ c.move1 = c'.move2 := ⟨c, hc, Or.inl rfl⟩
    have hw2 : ∃ c' ∈ cs, c.move2 = c'.move1 ∨ c.move2 = c'.move2 := ⟨c, hc, Or.inr rfl⟩
    by_cases h1 : hasId moves c.move1 <;> by_cases h2 : hasId moves c.move2 <;>
      simp [bothKnown, h1, h2, hw1, hw2]
  rw [hfc]

lemma cmdm_lookup_fields (moves : List Move) (cs : List Choice) (k : String)
    (d : MoveEntry) (h : (createMoveDataMap moves cs).lookup k = some d) :
    d.move = ⟨k⟩ ∧ d.wins = refWins moves cs k ∧ d.total = refTotal moves cs k := by
  refine ⟨?_, ?_, ?_⟩
  · have hm : ((createMoveDataMap moves cs).lookup k).map MoveEntry.move =
        ((cs.foldl (initStep moves) []).lookup k).map MoveEntry.move :=
      tallyFold_moveProj cs _ k
    rw [h, initFold_nil_lookup] at hm
    have hs : ((cs.foldl (initStep moves) []).lookup k).isSome := by
      rw [← tallyFold_lookup_isSome cs _ k]
      show ((createMoveDataMap moves cs).lookup k).isSome
      simp [h]
    rw [initFold_nil_lookup] at hs
    by_cases hcond : hasId moves k ∧ ∃ c ∈ cs, k = c.move1 ∨ k = c.move2
    · rw [if_pos hcond] at hm
      simpa [zeroEntry] using hm
    · rw [if_neg hcond] at hs
      simp at hs
  · have := cmdm_winsOf moves cs k
    rw [winsOf, h] at this
    simpa using this
  · have := cmdm_totalOf moves cs k
    rw [totalOf, h] at this
    simpa using this

/-! ### Characterization of `calculateBTLIterative` -/

lemma maximum_cons_eq_foldl {α : Type} [LinearOrder α] :
    ∀ (vs : List α) (v : α), (v :: vs).maximum = some (vs.foldl max v)
  | [], v => by simp; rfl
  | w :: vs, v => by
    rw [List.foldl_cons, ← maximum_cons_eq_foldl vs (max v w)]
    simp only [List.maximum_cons, ← max_assoc]
    rfl

lemma minimum_cons_eq_foldl {α : Type} [LinearOrder α] :
    ∀ (vs : List α) (v : α), (v :: vs).minimum = some (vs.foldl min v)
  | [], v => by simp; rfl
  | w :: vs, v => by
    rw [List.foldl_cons, ← minimum_cons_eq_foldl vs (min v w)]
    simp only [List.minimum_cons, ← min_assoc]
    rfl

lemma lookup_map_snd {β γ : Type} (l : List (String × β)) (g : β → γ) (k : String) :
    (l.map fun p => (p.1, g p.2)).lookup k = (l.lookup k).map g := by
  induction l with
  | nil => simp
  | cons p l ih =>
    obtain ⟨a, b⟩ := p
    by_cases h : k = a
    · subst h; simp [List.lookup_cons]
    · have hb : (k == a) = false := beq_eq_false_iff_ne.2 h
      simp [List.lookup_cons, hb, ih]

lemma iterative_lookup (md : MoveData) (hnd : (md.map Prod.fst).Nodup)
    {k : String} {d : MoveEntry} (hm : (k, d) ∈ md) :
    (calculateBTLIterative md).lookup k =
      some (match (md.map fun p => seedScore p.2).maximum,
                  (md.map fun p => seedScore p.2).minimum with
            | some M, some m =>
                if M > m then (seedScore d - m) / (M - m) else seedScore d
            | _, _ => seedScore d) := by
  have hlk : md.lookup k = some d := lookup_of_mem_nodup hnd hm
  have hnil : ¬ md.length = 0 := by
    cases md with
    | nil => simp at hm
    | cons q rest => simp
  have hvals : (md.map fun p => (p.1, seedScore p.2)).map Prod.snd
      = md.map fun p => seedScore p.2 := by
    rw [List.map_map]; rfl
  unfold calculateBTLIterative
  rw [if_neg hnil]
  dsimp only
  rw [hvals]
  cases hs : md.map fun p => seedScore p.2 with
  | nil =>
    cases md with
    | nil => simp at hm
    | cons q rest => simp at hs
  | cons v vs =>
    rw [maximum_cons_eq_foldl, minimum_cons_eq_foldl]
    dsimp only
    by_cases hlt : vs.foldl min v < vs.foldl max v
    · rw [if_pos (by rw [gt_iff_lt, sub_pos]; exact hlt),
        if_pos (by rw [gt_iff_lt]; exact hlt)]
      have h1 := lookup_map_snd (md.map fun p => (p.1, seedScore p.2))
        (fun x => (x - vs.foldl min v) / (vs.foldl max v - vs.foldl min v)) k
      simp only [] at h1
      rw [h1, lookup_map_snd, hlk]
      rfl
    · rw [if_neg (by rw [gt_iff_lt, sub_pos]; exact hlt),
        if_neg (by rw [gt_iff_lt]; exact hlt)]
      rw [lookup_map_snd, hlk]
      rfl

/-! ### Confidence lemmas -/

lemma calculateConfidence_zero : calculateConfidence 0 = 0 := by
  simp [calculateConfidence]

lemma calculateConfidence_of_pos (n : ℕ) (h : 1 ≤ n) :
    calculateConfidence n = 1 / (1 + Real.exp (-(0.5) * ((n : ℝ) - 10))) := by
  rw [calculateConfidence, if_neg (by omega)]

lemma calculateConfidence_pos (n : ℕ) (h : 1 ≤ n) : 0 < calculateConfidence n := by
  rw [calculateConfidence_of_pos n h]
  positivity

lemma calculateConfidence_lt_one (n : ℕ) (h : 1 ≤ n) : calculateConfidence n < 1 := by
  rw [calculateConfidence_of_pos n h]
  rw [div_lt_one (by positivity)]
  linarith [Real.exp_pos (-(0.5) * ((n : ℝ) - 10))]

lemma calculateConfidence_nonneg (n : ℕ) : 0 ≤ calculateConfidence n := by
  rcases Nat.eq_zero_or_pos n with rfl | h
  · rw [calculateConfidence_zero]
  · exact le_of_lt (calculateConfidence_pos n h)

lemma calculateConfidence_strictMono {m n : ℕ} (hmn : m < n) :
    calculateConfidence m < calculateConfidence n := by
  rcases Nat.eq_zero_or_pos m with rfl | hm
  · rw [calculateConfidence_zero]
    exact calculateConfidence_pos n hmn
  · have hn : 1 ≤ n := le_trans hm (le_of_lt hmn)
    rw [calculateConfidence_of_pos m hm, calculateConfidence_of_pos n hn]
    have hcast : (m : ℝ) < (n : ℝ) := by exact_mod_cast hmn
    have hexp : Real.exp (-(0.5) * ((n : ℝ) - 10)) < Real.exp (-(0.5) * ((m : ℝ) - 10)) := by
      apply Real.exp_lt_exp.2
      nlinarith
    exact one_div_lt_one_div_of_lt (by positivity) (by linarith)

lemma calculateConfidence_ten : calculateConfidence 10 = 1 / 2 := by
  rw [calculateConfidence_of_pos 10 (by norm_num)]
  norm_num

/-! ### Claim C3 -/

/-- C3 counterexample: the claim states that `calculateConfidence n` equals the
logistic `1 / (1 + e^(-0.5 (n - 10)))` for every `n ≥ 0` and that
`confidence(0) = 1/(1+e^5)`; the code instead returns exactly 0 at `n = 0`
(an explicit special case), which differs from the strictly positive logistic
value. -/
theorem c3_counterexample :
    calculateConfidence 0 = 0 ∧
      calculateConfidence 0 ≠ 1 / (1 + Real.exp (-(0.5) * ((0 : ℝ) - 10))) := by
  refine ⟨calculateConfidence_zero, ?_⟩
  rw [calculateConfidence_zero]
  intro h
  have hp : (0 : ℝ) < 1 / (1 + Real.exp (-(0.5) * ((0 : ℝ) - 10))) := by positivity
  rw [← h] at hp
  exact lt_irrefl 0 hp

/-- C3 (amended): `calculateConfidence n` equals the logistic
`1 / (1 + e^(-0.5 (n - 10)))` for every `n ≥ 1`, while `calculateConfidence 0`
is exactly 0; the function is strictly increasing in `n` for `n ≥ 0`, and
`calculateConfidence 10 = 0.5` exactly. -/
theorem c3_spec :
    (∀ n : ℕ, 1 ≤ n →
      calculateConfidence n = 1 / (1 + Real.exp (-(0.5) * ((n : ℝ) - 10)))) ∧
    calculateConfidence 0 = 0 ∧
    (∀ m n : ℕ, m < n → calculateConfidence m < calculateConfidence n) ∧
    calculateConfidence 10 = 1 / 2 :=
  ⟨calculateConfidence_of_pos, calculateConfidence_zero,
    fun _ _ hmn => calculateConfidence_strictMono hmn, calculateConfidence_ten⟩

/-- C3 witness: the amended statement applied at the concrete inputs
`n = 1` and `m = 0 < n = 10`. -/
theorem c3_witness :
    (1 ≤ 1 ∧
      calculateConfidence 1 = 1 / (1 + Real.exp (-(0.5) * (((1 : ℕ) : ℝ) - 10)))) ∧
    (0 < 10 ∧ calculateConfidence 0 < calculateConfidence 10) :=
  ⟨⟨le_refl 1, c3_spec.1 1 (le_refl 1)⟩,
    ⟨by norm_num, c3_spec.2.2.1 0 10 (by norm_num)⟩⟩

/-! ### Claim C8 -/

lemma pred_winner_clauses (s1 s2 : ℝ) :
    ((if s1 > s2 + 0.1 then (1 : ℕ) else if s2 > s1 + 0.1 then 2 else 0) = 1 ↔
      s1 > s2 + 0.1) ∧
    ((if s1 > s2 + 0.1 then (1 : ℕ) else if s2 > s1 + 0.1 then 2 else 0) = 2 ↔
      s2 > s1 + 0.1) ∧
    ((if s1 > s2 + 0.1 then (1 : ℕ) else if s2 > s1 + 0.1 then 2 else 0) = 0 ↔
      |s1 - s2| ≤ 0.1) := by
  by_cases hab : s1 > s2 + 0.1
  · have hnb : ¬s2 > s1 + 0.1 := by linarith
    have habs : ¬|s1 - s2| ≤ 0.1 := by
      rw [abs_le]
      rintro ⟨-, h⟩
      linarith
    simp [hab, hnb, habs]
  · by_cases hba : s2 > s1 + 0.1
    · have habs : ¬|s1 - s2| ≤ 0.1 := by
        rw [abs_le]
        rintro ⟨h, -⟩
        linarith
      simp [hab, hba, habs]
    · have habs : |s1 - s2| ≤ 0.1 := by
        rw [abs_le]
        constructor <;> linarith [not_lt.1 hab, not_lt.1 hba]
      simp [hab, hba, habs]

/-- C8: for a pair of items whose tallies are present in the move-data map
(and whose win tallies are the nonnegative counts the engine produces),
`calculateBTLPrediction` computes `scoreA = winRateA / (winRateA + winRateB)`
and `scoreB = 1 - scoreA` (defaulting both to 0.5 when both win rates are 0),
returns winner 1 (resp. 2) exactly when that score exceeds the other by more
than 0.1, returns "no clear prediction" (winner 0) exactly when
`|scoreA - scoreB| ≤ 0.1`, and reports confidence
`confidence(totalA + totalB)`. -/
theorem c8_spec (m1 m2 : String) (md : MoveData) (d1 d2 : MoveEntry)
    (h1 : md.lookup m1 = some d1) (h2 : md.lookup m2 = some d2)
    (hw1 : 0 ≤ d1.wins) (hw2 : 0 ≤ d2.wins) :
    (¬((if d1.total > 0 then (d1.wins : ℝ) / (d1.total : ℝ) else 0.5) = 0 ∧
        (if d2.total > 0 then (d2.wins : ℝ) / (d2.total : ℝ) else 0.5) = 0) →
      (calculateBTLPrediction m1 m2 md).move1Score =
          (if d1.total > 0 then (d1.wins : ℝ) / (d1.total : ℝ) else 0.5) /
            ((if d1.total > 0 then (d1.wins : ℝ) / (d1.total : ℝ) else 0.5) +
              (if d2.total > 0 then (d2.wins : ℝ) / (d2.total : ℝ) else 0.5)) ∧
        (calculateBTLPrediction m1 m2 md).move2Score =
          1 - (calculateBTLPrediction m1 m2 md).move1Score) ∧
    (((if d1.total > 0 then (d1.wins : ℝ) / (d1.total : ℝ) else 0.5) = 0 ∧
        (if d2.total > 0 then (d2.wins : ℝ) / (d2.total : ℝ) else 0.5) = 0) →
      (calculateBTLPrediction m1 m2 md).move1Score = 0.5 ∧
        (calculateBTLPrediction m1 m2 md).move2Score = 0.5) ∧
    ((calculateBTLPrediction m1 m2 md).predictedWinner = 1 ↔
      (calculateBTLPrediction m1 m2 md).move1Score >
        (calculateBTLPrediction m1 m2 md).move2Score + 0.1) ∧
    ((calculateBTLPrediction m1 m2 md).predictedWinner = 2 ↔
      (calculateBTLPrediction m1 m2 md).move2Score >
        (calculateBTLPrediction m1 m2 md).move1Score + 0.1) ∧
    ((calculateBTLPrediction m1 m2 md).predictedWinner = 0 ↔
      |(calculateBTLPrediction m1 m2 md).move1Score -
        (calculateBTLPrediction m1 m2 md).move2Score| ≤ 0.1) ∧
    (calculateBTLPrediction m1 m2 md).confidence =
      calculateConfidence (d1.total + d2.total) := by
  unfold calculateBTLPrediction
  rw [h1, h2]
  dsimp only
  set w1 : ℝ := if d1.total > 0 then (d1.wins : ℝ) / (d1.total : ℝ) else 0.5 with hw1d
  set w2 : ℝ := if d2.total > 0 then (d2.wins : ℝ) / (d2.total : ℝ) else 0.5 with hw2d
  have hn1 : 0 ≤ w1 := by
    rw [hw1d]
    split_ifs
    · exact div_nonneg (by exact_mod_cast hw1) (Nat.cast_nonneg _)
    · norm_num
  have hn2 : 0 ≤ w2 := by
    rw [hw2d]
    split_ifs
    · exact div_nonneg (by exact_mod_cast hw2) (Nat.cast_nonneg _)
    · norm_num
  by_cases hT : w1 + w2 > 0
  · simp only [if_pos hT]
    have hne : w1 + w2 ≠ 0 := ne_of_gt hT
    refine ⟨fun _ => ⟨by trivial, ?_⟩, fun hz => ?_, ?_, ?_, ?_, by trivial⟩
    · field_simp
    · exfalso
      rw [hz.1, hz.2] at hT
      norm_num at hT
    · exact (pred_winner_clauses _ _).1
    · exact (pred_winner_clauses _ _).2.1
    · exact (pred_winner_clauses _ _).2.2
  · have hz1 : w1 = 0 := le_antisymm (by linarith [not_lt.1 hT]) hn1
    have hz2 : w2 = 0 := le_antisymm (by linarith [not_lt.1 hT]) hn2
    simp only [if_neg hT]
    refine ⟨fun hne => absurd ⟨hz1, hz2⟩ hne, fun _ => ⟨by trivial, by trivial⟩, ?_, ?_, ?_,
      by trivial⟩
    · exact (pred_winner_clauses _ _).1
    · exact (pred_winner_clauses _ _).2.1
    · exact (pred_winner_clauses _ _).2.2

/-- C8 witness: the theorem applied to a concrete two-entry move-data map in
which item "a" won its single comparison and item "b" lost its own; the
prediction then names item 1 as the definite winner. -/
theorem c8_witness :
    ((([("a", (⟨⟨"a"⟩, 1, 1, []⟩ : MoveEntry)), ("b", ⟨⟨"b"⟩, 0, 1, []⟩)] : MoveData).lookup
        "a" = some ⟨⟨"a"⟩, 1, 1, []⟩) ∧
      (([("a", (⟨⟨"a"⟩, 1, 1, []⟩ : MoveEntry)), ("b", ⟨⟨"b"⟩, 0, 1, []⟩)] : MoveData).lookup
        "b" = some ⟨⟨"b"⟩, 0, 1, []⟩) ∧
      (0 : ℚ) ≤ 1 ∧ (0 : ℚ) ≤ 0) ∧
    (calculateBTLPrediction "a" "b"
      [("a", ⟨⟨"a"⟩, 1, 1, []⟩), ("b", ⟨⟨"b"⟩, 0, 1, []⟩)]).predictedWinner = 1 := by
  have H := c8_spec "a" "b"
    [("a", ⟨⟨"a"⟩, 1, 1, []⟩), ("b", ⟨⟨"b"⟩, 0, 1, []⟩)]
    ⟨⟨"a"⟩, 1, 1, []⟩ ⟨⟨"b"⟩, 0, 1, []⟩ rfl rfl (by norm_num) (le_refl 0)
  obtain ⟨hA, -, hC, -, -, -⟩ := H
  refine ⟨⟨rfl, rfl, by norm_num, le_refl 0⟩, ?_⟩
  dsimp only at hA hC
  norm_num at hA hC
  rcases hA with ⟨hs1, hs2⟩
  rw [hs2, hs1] at hC
  exact hC.2 (by norm_num)

/-! ### Tiering lemmas -/

lemma tierOfRank_le_five (i n : Nat) : tierOfRank i n ≤ 5 := by
  unfold tierOfRank
  split_ifs <;> omega

lemma rankPercentile_mono (n : Nat) {i j : Nat} (hij : i ≤ j) :
    rankPercentile i n ≤ rankPercentile j n := by
  unfold rankPercentile
  rcases Nat.eq_zero_or_pos n with rfl | hn
  · simp
  · have hn' : (0 : ℚ) < (n : ℚ) := by exact_mod_cast hn
    apply mul_le_mul_of_nonneg_right _ (by norm_num)
    rw [div_le_div_iff_of_pos_right hn']
    exact_mod_cast hij

lemma tierOfRank_mono (n : Nat) {i j : Nat} (hij : i ≤ j) :
    tierOfRank i n ≤ tierOfRank j n := by
  have hp := rankPercentile_mono n hij
  unfold tierOfRank
  split_ifs <;> first | omega | (exfalso; linarith)

lemma tierFold_eq {β : Type} (n : Nat) :
    ∀ (xs : List (Nat × β)) (acc : Tiers β),
      xs.foldl (tierStep n) acc =
        { S := acc.S ++ (xs.filter fun im => decide (tierOfRank im.1 n = 0)).map Prod.snd,
          A := acc.A ++ (xs.filter fun im => decide (tierOfRank im.1 n = 1)).map Prod.snd,
          B := acc.B ++ (xs.filter fun im => decide (tierOfRank im.1 n = 2)).map Prod.snd,
          C := acc.C ++ (xs.filter fun im => decide (tierOfRank im.1 n = 3)).map Prod.snd,
          D := acc.D ++ (xs.filter fun im => decide (tierOfRank im.1 n = 4)).map Prod.snd,
          F := acc.F ++ (xs.filter fun im => decide (tierOfRank im.1 n = 5)).map Prod.snd }
  | [], acc => by simp
  | (i, b) :: xs, acc => by
    rw [List.foldl_cons, tierFold_eq n xs]
    unfold tierStep
    dsimp only
    split_ifs with h1 h2 h3 h4 h5
    · have ht : tierOfRank i n = 0 := by
        unfold tierOfRank rankPercentile
        rw [if_pos h1]
      simp [List.filter_cons, ht, List.append_assoc]
    · have ht : tierOfRank i n = 1 := by
        unfold tierOfRank rankPercentile
        rw [if_neg h1, if_pos h2]
      simp [List.filter_cons, ht, List.append_assoc]
    · have ht : tierOfRank i n = 2 := by
        unfold tierOfRank rankPercentile
        rw [if_neg h1, if_neg h2, if_pos h3]
      simp [List.filter_cons, ht, List.append_assoc]
    · have ht : tierOfRank i n = 3 := by
        unfold tierOfRank rankPercentile
        rw [if_neg h1, if_neg h2, if_neg h3, if_pos h4]
      simp [List.filter_cons, ht, List.append_assoc]
    · have ht : tierOfRank i n = 4 := by
        unfold tierOfRank rankPercentile
        rw [if_neg h1, if_neg h2, if_neg h3, if_neg h4, if_pos h5]
      simp [List.filter_cons, ht, List.append_assoc]
    · have ht : tierOfRank i n = 5 := by
        unfold tierOfRank rankPercentile
        rw [if_neg h1, if_neg h2, if_neg h3, if_neg h4, if_neg h5]
      simp [List.filter_cons, ht, List.append_assoc]

lemma count_filter_of_neg {γ : Type} [DecidableEq γ] {p : γ → Bool} {a : γ}
    (h : p a = false) (l : List γ) : (l.filter p).count a = 0 := by
  rw [List.count_eq_zero]
  intro hmem
  rw [List.mem_filter] at hmem
  rw [hmem.2] at h
  simp at h

lemma filter_six_perm {γ : Type} [DecidableEq γ] (f : γ → Nat) (hf : ∀ x, f x ≤ 5)
    (xs : List γ) :
    (xs.filter fun x => decide (f x = 0)) ++ (xs.filter fun x => decide (f x = 1)) ++
      (xs.filter fun x => decide (f x = 2)) ++ (xs.filter fun x => decide (f x = 3)) ++
      (xs.filter fun x => decide (f x = 4)) ++ (xs.filter fun x => decide (f x = 5))
      |> (List.Perm · xs) := by
  show List.Perm _ xs
  rw [List.perm_iff_count]
  intro a
  simp only [List.count_append]
  have ha := hf a
  interval_cases hv : f a <;>
    simp [hv, count_filter_of_neg]

lemma sortByScoreDesc_perm {α : Type} [LinearOrder α] (l : List (ScoredMove α)) :
    List.Perm (sortByScoreDesc l) l :=
  List.mergeSort_perm l _

lemma sortByScoreDesc_sorted {α : Type} [LinearOrder α] (l : List (ScoredMove α)) :
    (sortByScoreDesc l).Pairwise fun a b => b.btlScore ≤ a.btlScore := by
  have h := @List.sorted_mergeSort (ScoredMove α)
    (fun a b : ScoredMove α => decide (b.btlScore ≤ a.btlScore))
    (fun a b c h1 h2 => by
      simp only [decide_eq_true_eq] at *
      exact le_trans h2 h1)
    (fun a b => by
      simp only [Bool.or_eq_true, decide_eq_true_eq]
      exact le_total b.btlScore a.btlScore)
    l
  exact h.imp fun hab => by simpa using hab

lemma groupMovesByTier_eq_ref {α : Type} [LinearOrder α] (l : List (ScoredMove α)) :
    groupMovesByTier l =
      { S := tierBucketRef l 0, A := tierBucketRef l 1, B := tierBucketRef l 2,
        C := tierBucketRef l 3, D := tierBucketRef l 4, F := tierBucketRef l 5 } := by
  unfold groupMovesByTier tierBucketRef
  dsimp only
  rw [tierFold_eq]
  simp

lemma tierBucketRef_score_mono {α : Type} [LinearOrder α] (l : List (ScoredMove α))
    {ji jj : Nat} (hij : ji < jj) {x y : ScoredMove α}
    (hx : x ∈ tierBucketRef l ji) (hy : y ∈ tierBucketRef l jj) :
    y.btlScore ≤ x.btlScore := by
  unfold tierBucketRef at hx hy
  obtain ⟨⟨ix, x'⟩, hmx, hxe⟩ := List.mem_map.1 hx
  obtain ⟨⟨iy, y'⟩, hmy, hye⟩ := List.mem_map.1 hy
  dsimp only at hxe hye
  subst hxe
  subst hye
  rw [List.mem_filter] at hmx hmy
  have htx : tierOfRank ix (sortByScoreDesc l).length = ji := of_decide_eq_true hmx.2
  have hty : tierOfRank iy (sortByScoreDesc l).length = jj := of_decide_eq_true hmy.2
  have hio : ix < iy := by
    by_contra hcon
    push_neg at hcon
    have hmono := tierOfRank_mono (sortByScoreDesc l).length hcon
    omega
  have hgx := List.mk_mem_enum_iff_getElem?.1 hmx.1
  have hgy := List.mk_mem_enum_iff_getElem?.1 hmy.1
  rw [List.getElem?_eq_some_iff] at hgx hgy
  obtain ⟨hbx, hgex⟩ := hgx
  obtain ⟨hby, hgey⟩ := hgy
  have hpw := List.pairwise_iff_getElem.1 (sortByScoreDesc_sorted l) ix iy hbx hby hio
  rw [hgex, hgey] at hpw
  exact hpw

/-! ### Claim C5 -/

/-- C5: the six tier buckets of `groupMovesByTier` partition the input exactly
(their concatenation in S→F order is a permutation of the input, so every
standing lands in exactly one bucket, none dropped, none duplicated); each
bucket is exactly the rank-percentile segment of the score-descending sort
(`[0,10%)` S, `[10,25%)` A, `[25,50%)` B, `[50,75%)` C, `[75,90%)` D,
`[90,100%]` F, by index/total); and buckets are populated in score-descending
order from S to F. -/
theorem c5_spec {α : Type} [LinearOrder α] (l : List (ScoredMove α)) :
    List.Perm
      ((groupMovesByTier l).S ++ (groupMovesByTier l).A ++ (groupMovesByTier l).B ++
        (groupMovesByTier l).C ++ (groupMovesByTier l).D ++ (groupMovesByTier l).F) l ∧
    tierListOf (groupMovesByTier l) =
      [tierBucketRef l 0, tierBucketRef l 1, tierBucketRef l 2, tierBucketRef l 3,
        tierBucketRef l 4, tierBucketRef l 5] ∧
    (∀ ji jj : Nat, ∀ x y : ScoredMove α, ji < jj →
      x ∈ (tierListOf (groupMovesByTier l)).getD ji [] →
      y ∈ (tierListOf (groupMovesByTier l)).getD jj [] →
      y.btlScore ≤ x.btlScore) := by
  have href := groupMovesByTier_eq_ref l
  refine ⟨?_, ?_, ?_⟩
  · rw [href]
    dsimp only
    unfold tierBucketRef
    rw [← List.map_append, ← List.map_append, ← List.map_append, ← List.map_append,
      ← List.map_append]
    have hperm := filter_six_perm
      (fun im : Nat × ScoredMove α => tierOfRank im.1 (sortByScoreDesc l).length)
      (fun im => tierOfRank_le_five _ _) (sortByScoreDesc l).enum
    have h2 := hperm.map Prod.snd
    rw [List.enum_map_snd] at h2
    exact h2.trans (sortByScoreDesc_perm l)
  · rw [href]
    rfl
  · intro ji jj x y hij hx hy
    rw [href] at hx hy
    dsimp only [tierListOf] at hx hy
    by_cases hjj : jj ≤ 5
    · have hji : ji ≤ 4 := by omega
      interval_cases ji <;> interval_cases jj <;>
        first
          | omega
          | (simp only [List.getD_cons_zero, List.getD_cons_succ] at hx hy
             exact tierBucketRef_score_mono l (by omega) hx hy)
    · exfalso
      rw [List.getD_eq_default] at hy
      · exact absurd hy (List.not_mem_nil y)
      · simp only [List.length_cons, List.length_nil]
        omega

/-- C5 witness: the theorem applied to the concrete two-standing input
`[("a", 1), ("b", 0)]`; "a" lands in the S bucket (rank percentile 0), "b"
in the C bucket (rank percentile 50), and the cross-bucket score bound holds. -/
theorem c5_witness :
    (0 < 3 ∧
      (⟨"a", 1⟩ : ScoredMove ℚ) ∈
        (tierListOf (groupMovesByTier [⟨"a", 1⟩, ⟨"b", 0⟩])).getD 0 [] ∧
      (⟨"b", 0⟩ : ScoredMove ℚ) ∈
        (tierListOf (groupMovesByTier [⟨"a", 1⟩, ⟨"b", 0⟩])).getD 3 []) ∧
    (⟨"b", 0⟩ : ScoredMove ℚ).btlScore ≤ (⟨"a", 1⟩ : ScoredMove ℚ).btlScore := by
  have hsort : sortByScoreDesc [(⟨"a", 1⟩ : ScoredMove ℚ), ⟨"b", 0⟩] =
      [⟨"a", 1⟩, ⟨"b", 0⟩] :=
    List.mergeSort_of_sorted (by decide)
  have hg : groupMovesByTier [(⟨"a", 1⟩ : ScoredMove ℚ), ⟨"b", 0⟩] =
      { S := [⟨"a", 1⟩], A := [], B := [], C := [⟨"b", 0⟩], D := [], F := [] } := by
    unfold groupMovesByTier
    rw [hsort]
    norm_num [List.enum, List.enumFrom, tierStep]
  have hx : (⟨"a", 1⟩ : ScoredMove ℚ) ∈
      (tierListOf (groupMovesByTier [⟨"a", 1⟩, ⟨"b", 0⟩])).getD 0 [] := by
    rw [hg]
    decide
  have hy : (⟨"b", 0⟩ : ScoredMove ℚ) ∈
      (tierListOf (groupMovesByTier [⟨"a", 1⟩, ⟨"b", 0⟩])).getD 3 [] := by
    rw [hg]
    decide
  exact ⟨⟨by norm_num, hx, hy⟩,
    (c5_spec [⟨"a", 1⟩, ⟨"b", 0⟩]).2.2 0 3 _ _ (by norm_num) hx hy⟩

/-! ### Claim C4 -/

/-- C4 counterexample: two standings with the identical strength score 1 are
split across two tiers by `groupMovesByTier` — with two items, the first
sorted index has percentile 0 (tier S) and the second percentile 50 (tier C),
even though the scores are equal. -/
theorem c4_counterexample :
    (groupMovesByTier [(⟨"a", 1⟩ : ScoredMove ℚ), ⟨"b", 1⟩]).S = [⟨"a", 1⟩] ∧
    (groupMovesByTier [(⟨"a", 1⟩ : ScoredMove ℚ), ⟨"b", 1⟩]).C = [⟨"b", 1⟩] ∧
    (⟨"a", 1⟩ : ScoredMove ℚ).btlScore = (⟨"b", 1⟩ : ScoredMove ℚ).btlScore := by
  have hsort : sortByScoreDesc [(⟨"a", 1⟩ : ScoredMove ℚ), ⟨"b", 1⟩] =
      [⟨"a", 1⟩, ⟨"b", 1⟩] :=
    List.mergeSort_of_sorted (by decide)
  have hg : groupMovesByTier [(⟨"a", 1⟩ : ScoredMove ℚ), ⟨"b", 1⟩] =
      { S := [⟨"a", 1⟩], A := [], B := [], C := [⟨"b", 1⟩], D := [], F := [] } := by
    unfold groupMovesByTier
    rw [hsort]
    norm_num [List.enum, List.enumFrom, tierStep]
  rw [hg]
  exact ⟨rfl, rfl, rfl⟩

/-- C4 (amended): standings sharing an identical strength score are *not*
guaranteed the same tier: the tier of every standing is determined purely by
its rank position in the score-descending sort (its index percentile), so a
tied group straddling a percentile boundary is split, the earlier (higher
ranked) members going to the higher tier — the tier index is monotone in the
sorted position. -/
theorem c4_spec {α : Type} [LinearOrder α] (l : List (ScoredMove α)) :
    (∀ i : Nat, ∀ x : ScoredMove α, (i, x) ∈ (sortByScoreDesc l).enum →
      x ∈ (tierListOf (groupMovesByTier l)).getD
        (tierOfRank i (sortByScoreDesc l).length) []) ∧
    (∀ i j : Nat, i ≤ j →
      tierOfRank i (sortByScoreDesc l).length ≤
        tierOfRank j (sortByScoreDesc l).length) := by
  constructor
  · intro i x hmem
    rw [groupMovesByTier_eq_ref]
    dsimp only [tierListOf]
    have hb := tierOfRank_le_five i (sortByScoreDesc l).length
    have hmm : x ∈ tierBucketRef l (tierOfRank i (sortByScoreDesc l).length) := by
      unfold tierBucketRef
      exact List.mem_map.2 ⟨(i, x), List.mem_filter.2 ⟨hmem, by simp⟩, rfl⟩
    interval_cases hv : tierOfRank i (sortByScoreDesc l).length <;>
      simpa [List.getD_cons_zero, List.getD_cons_succ] using hmm
  · intro i j hij
    exact tierOfRank_mono _ hij

/-- C4 witness: the amended theorem applied to the tied two-standing input of
the counterexample; the first tied standing (rank 0) is placed in tier S and
the second (rank 1) in tier C, with the monotone tier index discharged at
ranks 0 ≤ 1. -/
theorem c4_witness :
    ((0, (⟨"a", 1⟩ : ScoredMove ℚ)) ∈
        (sortByScoreDesc [(⟨"a", 1⟩ : ScoredMove ℚ), ⟨"b", 1⟩]).enum ∧
      (⟨"a", 1⟩ : ScoredMove ℚ) ∈
        (tierListOf (groupMovesByTier [(⟨"a", 1⟩ : ScoredMove ℚ), ⟨"b", 1⟩])).getD
          (tierOfRank 0 (sortByScoreDesc [(⟨"a", 1⟩ : ScoredMove ℚ), ⟨"b", 1⟩]).length)
          []) ∧
    (0 ≤ 1 ∧
      tierOfRank 0 (sortByScoreDesc [(⟨"a", 1⟩ : ScoredMove ℚ), ⟨"b", 1⟩]).length ≤
        tierOfRank 1 (sortByScoreDesc [(⟨"a", 1⟩ : ScoredMove ℚ), ⟨"b", 1⟩]).length) := by
  have hsort : sortByScoreDesc [(⟨"a", 1⟩ : ScoredMove ℚ), ⟨"b", 1⟩] =
      [⟨"a", 1⟩, ⟨"b", 1⟩] :=
    List.mergeSort_of_sorted (by decide)
  have hmem : (0, (⟨"a", 1⟩ : ScoredMove ℚ)) ∈
      (sortByScoreDesc [(⟨"a", 1⟩ : ScoredMove ℚ), ⟨"b", 1⟩]).enum := by
    rw [hsort]
    decide
  refine ⟨⟨hmem, (c4_spec [(⟨"a", 1⟩ : ScoredMove ℚ), ⟨"b", 1⟩]).1 0 _ hmem⟩,
    Nat.zero_le 1, (c4_spec [(⟨"a", 1⟩ : ScoredMove ℚ), ⟨"b", 1⟩]).2 0 1 (Nat.zero_le 1)⟩

/-! ### Claim C9 -/

unseal List.merge List.mergeSort in
lemma sortByScoreDesc_eval_pair :
    sortByScoreDesc [(⟨"b", 0⟩ : ScoredMove ℚ), ⟨"a", 1⟩] = [⟨"a", 1⟩, ⟨"b", 0⟩] := by
  decide

/-- C9 counterexample: `groupMovesByTier` sorts the caller's array in place
(`movesWithScores.sort(...)`), so after tiering the unsorted two-element input
`[("b", 0), ("a", 1)]` the caller's array holds `[("a", 1), ("b", 0)]` — the
argument is reordered, contradicting the claim that all engine operations
leave their arguments unchanged. -/
theorem c9_counterexample :
    groupMovesByTierArrayAfter [(⟨"b", 0⟩ : ScoredMove ℚ), ⟨"a", 1⟩] ≠
      [(⟨"b", 0⟩ : ScoredMove ℚ), ⟨"a", 1⟩] := by
  rw [groupMovesByTierArrayAfter, sortByScoreDesc_eval_pair]
  decide

/-- C9 (amended): `calculateConfidence`, `calculateBTLPrediction` and
`calculateBTLScores` are pure functions of their arguments, but
`groupMovesByTier` mutates the caller's standings array: after the call the
caller holds the stable descending-by-score sort of its previous contents — a
permutation of the original array, sorted, and equal to the original only when
the input was already sorted descending. -/
theorem c9_spec {α : Type} [LinearOrder α] (l : List (ScoredMove α)) :
    List.Perm (groupMovesByTierArrayAfter l) l ∧
    (groupMovesByTierArrayAfter l).Pairwise (fun a b => b.btlScore ≤ a.btlScore) ∧
    (l.Pairwise (fun a b => b.btlScore ≤ a.btlScore) →
      groupMovesByTierArrayAfter l = l) := by
  refine ⟨sortByScoreDesc_perm l, sortByScoreDesc_sorted l, fun hs => ?_⟩
  unfold groupMovesByTierArrayAfter sortByScoreDesc
  apply List.mergeSort_of_sorted
  exact hs.imp fun h => by simpa using h

/-- C9 witness: the amended theorem applied to an already-descending input,
which the in-place sort leaves unchanged. -/
theorem c9_witness :
    ([(⟨"a", 1⟩ : ScoredMove ℚ), ⟨"b", 0⟩].Pairwise fun a b => b.btlScore ≤ a.btlScore) ∧
    groupMovesByTierArrayAfter [(⟨"a", 1⟩ : ScoredMove ℚ), ⟨"b", 0⟩] =
      [(⟨"a", 1⟩ : ScoredMove ℚ), ⟨"b", 0⟩] :=
  ⟨by decide, (c9_spec [(⟨"a", 1⟩ : ScoredMove ℚ), ⟨"b", 0⟩]).2.2 (by decide)⟩

/-! ### Standing-level helper -/

lemma mem_calculateBTLScores {moves : List Move} {userChoices : List Choice} {mt : String}
    {s : Standing} (hs : s ∈ calculateBTLScores moves userChoices mt) :
    ∃ d : MoveEntry,
      (createMoveDataMap moves (userChoices.filter fun c => c.moveType == mt)).lookup s.id
        = some d ∧
      s.userWins = d.wins ∧ s.userTotal = d.total ∧
      s.btlScore = jsOrHalf ((calculateBTLIterative
        (createMoveDataMap moves (userChoices.filter fun c => c.moveType == mt))).lookup
          s.id) ∧
      s.winRate = (if d.total > 0 then d.wins / (d.total : Rat) else 0) ∧
      s.confidence = calculateConfidence d.total := by
  unfold calculateBTLScores at hs
  by_cases hlen : (userChoices.filter fun c => c.moveType == mt).length = 0
  · rw [if_pos hlen] at hs
    exact absurd hs (List.not_mem_nil s)
  · rw [if_neg hlen] at hs
    dsimp only at hs
    obtain ⟨p, hp, rfl⟩ := List.mem_map.1 hs
    have hlk : (createMoveDataMap moves
        (userChoices.filter fun c => c.moveType == mt)).lookup p.1 = some p.2 :=
      lookup_of_mem_nodup (cmdm_keys_nodup _ _) hp
    have hfld := cmdm_lookup_fields _ _ _ _ hlk
    have hid : p.2.move.id = p.1 := by rw [hfld.1]
    refine ⟨p.2, ?_, rfl, rfl, ?_, rfl, rfl⟩
    · dsimp only
      rw [hid]
      exact hlk
    · dsimp only
      rw [hid]

/-! ### Claim C1 -/

/-- C1 counterexample: for the non-empty items list `["x"]` and an event log
whose in-category filter is empty, `calculateBTLScores` returns the empty
array — no neutral standing for "x" is produced, contradicting the claim that
every input item appears with a 0.5 score. -/
theorem c1_counterexample :
    calculateBTLScores [⟨"x"⟩] [] "jab" = [] ∧
    ¬∃ s, s ∈ calculateBTLScores [⟨"x"⟩] [] "jab" ∧ s.id = "x" := by
  have h : calculateBTLScores [⟨"x"⟩] [] "jab" = [] := by
    unfold calculateBTLScores
    simp
  refine ⟨h, ?_⟩
  rw [h]
  rintro ⟨s, hs, -⟩
  exact absurd hs (List.not_mem_nil s)

/-- C1 (amended): when the event log filtered to the category is empty,
`calculateBTLScores` returns the empty array (no standings at all, not one
neutral standing per item); and in general a standing is emitted only for an
item that participates in at least one in-category event — items with zero
in-category comparison events are omitted from the output entirely. -/
theorem c1_spec (moves : List Move) (userChoices : List Choice) (mt : String) :
    ((userChoices.filter fun c => c.moveType == mt) = [] →
      calculateBTLScores moves userChoices mt = []) ∧
    (∀ s ∈ calculateBTLScores moves userChoices mt,
      ∃ c ∈ userChoices.filter fun c => c.moveType == mt,
        s.id = c.move1 ∨ s.id = c.move2) := by
  constructor
  · intro hempty
    unfold calculateBTLScores
    rw [hempty]
    simp
  · intro s hs
    obtain ⟨d, hlk, -⟩ := mem_calculateBTLScores hs
    have hsome : ((createMoveDataMap moves
        (userChoices.filter fun c => c.moveType == mt)).lookup s.id).isSome := by
      rw [hlk]
      rfl
    obtain ⟨-, c, hc, hp⟩ := (cmdm_lookup_isSome_iff _ _ _).1 hsome
    exact ⟨c, hc, hp⟩

/-- C1 witness: the amended theorem applied at two concrete inputs — items
`["x"]` with an off-category event (filtered log empty, result empty), and a
two-item category with one event, whose first standing's id indeed occurs in
that event. -/
theorem c1_witness :
    (([(⟨"x", "y", 1, "other"⟩ : Choice)].filter fun c => c.moveType == "jab") = [] ∧
      calculateBTLScores [⟨"x"⟩] [⟨"x", "y", 1, "other"⟩] "jab" = []) ∧
    (∃ s, s ∈ calculateBTLScores [⟨"a"⟩, ⟨"b"⟩] [⟨"a", "b", 1, "t"⟩] "t" ∧
      ∃ c ∈ [(⟨"a", "b", 1, "t"⟩ : Choice)].filter fun c => c.moveType == "t",
        s.id = c.move1 ∨ s.id = c.move2) := by
  have hfe : ([(⟨"x", "y", 1, "other"⟩ : Choice)].filter fun c => c.moveType == "jab") = [] :=
    rfl
  refine ⟨⟨hfe, (c1_spec [⟨"x"⟩] [⟨"x", "y", 1, "other"⟩] "jab").1 hfe⟩, ?_⟩
  have hne : ¬([(⟨"a", "b", 1, "t"⟩ : Choice)].filter fun c => c.moveType == "t").length = 0 := by
    decide
  have hsome : ((createMoveDataMap [⟨"a"⟩, ⟨"b"⟩]
      ([⟨"a", "b", 1, "t"⟩].filter fun c => c.moveType == "t")).lookup "a").isSome := by
    rw [cmdm_lookup_isSome_iff]
    exact ⟨by decide, ⟨"a", "b", 1, "t"⟩, by decide, Or.inl rfl⟩
  obtain ⟨d, hd⟩ := Option.isSome_iff_exists.1 hsome
  have hmem : ("a", d) ∈ createMoveDataMap [⟨"a"⟩, ⟨"b"⟩]
      ([⟨"a", "b", 1, "t"⟩].filter fun c => c.moveType == "t") :=
    mem_of_lookup_eq_some hd
  have hs : Standing.mk d.move.id
      (jsOrHalf ((calculateBTLIterative (createMoveDataMap [⟨"a"⟩, ⟨"b"⟩]
        ([⟨"a", "b", 1, "t"⟩].filter fun c => c.moveType == "t"))).lookup "a"))
      d.wins d.total (if d.total > 0 then d.wins / (d.total : Rat) else 0)
      (calculateConfidence d.total) ∈
        calculateBTLScores [⟨"a"⟩, ⟨"b"⟩] [⟨"a", "b", 1, "t"⟩] "t" := by
    unfold calculateBTLScores
    rw [if_neg hne]
    dsimp only
    exact List.mem_map.2 ⟨("a", d), hmem, rfl⟩
  exact ⟨_, hs, (c1_spec [⟨"a"⟩, ⟨"b"⟩] [⟨"a", "b", 1, "t"⟩] "t").2 _ hs⟩

/-! ### Claim C6 -/

/-- C6: an event with an unknown participant identifier (at any position in
the log) contributes nothing to any item's win or total tally — the event is
skipped entirely unless both participants are known items — and no standing is
ever produced for an id outside the supplied items.  (The embedding is a total
function: no exception is possible.) -/
theorem c6_spec (moves : List Move) (cs₁ cs₂ : List Choice) (c : Choice)
    (hunk : hasId moves c.move1 = false ∨ hasId moves c.move2 = false) :
    (∀ k : String,
      winsOf (createMoveDataMap moves (cs₁ ++ c :: cs₂)) k =
        winsOf (createMoveDataMap moves (cs₁ ++ cs₂)) k ∧
      totalOf (createMoveDataMap moves (cs₁ ++ c :: cs₂)) k =
        totalOf (createMoveDataMap moves (cs₁ ++ cs₂)) k) ∧
    (∀ (userChoices : List Choice) (mt : String),
      ∀ s ∈ calculateBTLScores moves userChoices mt, hasId moves s.id) := by
  have hbk : bothKnown moves c = false := by
    unfold bothKnown
    rcases hunk with h | h <;> simp [h]
  constructor
  · intro k
    rw [cmdm_winsOf, cmdm_winsOf, cmdm_totalOf, cmdm_totalOf]
    unfold refWins refTotal
    rw [List.filter_append, List.filter_append, List.filter_cons, hbk]
    exact ⟨rfl, rfl⟩
  · intro userChoices mt s hs
    obtain ⟨d, hlk, -⟩ := mem_calculateBTLScores hs
    have hsome : ((createMoveDataMap moves
        (userChoices.filter fun c => c.moveType == mt)).lookup s.id).isSome := by
      rw [hlk]
      rfl
    exact ((cmdm_lookup_isSome_iff _ _ _).1 hsome).1

/-- C6 witness: the theorem applied to a concrete log where the middle event
references the unknown id "zz"; the tallies of "a" and "b" are unchanged. -/
theorem c6_witness :
    (hasId [(⟨"a"⟩ : Move), ⟨"b"⟩] "zz" = false) ∧
    winsOf (createMoveDataMap [⟨"a"⟩, ⟨"b"⟩]
      ([⟨"a", "b", 1, "t"⟩] ++ ⟨"a", "zz", 1, "t"⟩ :: [⟨"a", "b", 2, "t"⟩])) "a" =
      winsOf (createMoveDataMap [⟨"a"⟩, ⟨"b"⟩]
        ([⟨"a", "b", 1, "t"⟩] ++ [⟨"a", "b", 2, "t"⟩])) "a" := by
  refine ⟨rfl, ?_⟩
  exact ((c6_spec [⟨"a"⟩, ⟨"b"⟩] [⟨"a", "b", 1, "t"⟩] [⟨"a", "b", 2, "t"⟩]
    ⟨"a", "zz", 1, "t"⟩ (Or.inr rfl)).1 "a").1

/-! ### Claim C7 -/

/-- C7: appending a tie event between two distinct known items adds exactly
0.5 to each participant's win tally and 1 to each participant's total tally;
and in the concrete scenario of two items whose only in-category event is one
tie between them, both standings end with win 0.5, total 1, and identical
final strength scores. -/
theorem c7_spec :
    (∀ (moves : List Move) (cs : List Choice) (c : Choice),
      c.userChoice ≠ 1 → c.userChoice ≠ 2 →
      hasId moves c.move1 → hasId moves c.move2 → c.move1 ≠ c.move2 →
      winsOf (createMoveDataMap moves (cs ++ [c])) c.move1 =
          winsOf (createMoveDataMap moves cs) c.move1 + 1/2 ∧
        winsOf (createMoveDataMap moves (cs ++ [c])) c.move2 =
          winsOf (createMoveDataMap moves cs) c.move2 + 1/2 ∧
        totalOf (createMoveDataMap moves (cs ++ [c])) c.move1 =
          totalOf (createMoveDataMap moves cs) c.move1 + 1 ∧
        totalOf (createMoveDataMap moves (cs ++ [c])) c.move2 =
          totalOf (createMoveDataMap moves cs) c.move2 + 1) ∧
    (∃ sa sb : Standing,
      calculateBTLScores [⟨"a"⟩, ⟨"b"⟩] [⟨"a", "b", 0, "t"⟩] "t" = [sa, sb] ∧
      sa.userWins = 1/2 ∧ sa.userTotal = 1 ∧ sb.userWins = 1/2 ∧ sb.userTotal = 1 ∧
      sa.btlScore = sb.btlScore) := by
  constructor
  · intro moves cs c hu1 hu2 hk1 hk2 hne
    have hbk : bothKnown moves c = true := by
      unfold bothKnown
      simp [hk1, hk2]
    have hne' : c.move2 ≠ c.move1 := Ne.symm hne
    refine ⟨?_, ?_, ?_, ?_⟩
    · rw [cmdm_winsOf, cmdm_winsOf]
      unfold refWins
      simp [List.filter_append, List.filter_cons, hbk, winIncr, hu1, hu2, hne']
    · rw [cmdm_winsOf, cmdm_winsOf]
      unfold refWins
      simp [List.filter_append, List.filter_cons, hbk, winIncr, hu1, hu2, hne]
    · rw [cmdm_totalOf, cmdm_totalOf]
      unfold refTotal
      simp [List.filter_append, List.filter_cons, hbk, totalIncr, hne']
    · rw [cmdm_totalOf, cmdm_totalOf]
      unfold refTotal
      simp [List.filter_append, List.filter_cons, hbk, totalIncr, hne]
  · have hkeys : (createMoveDataMap [⟨"a"⟩, ⟨"b"⟩]
        ([⟨"a", "b", 0, "t"⟩].filter fun c => c.moveType == "t")).map Prod.fst =
        ["a", "b"] := by
      unfold createMoveDataMap
      rw [tallyFold_keys]
      decide
    obtain ⟨p1, p2, hmd⟩ : ∃ p1 p2, createMoveDataMap [⟨"a"⟩, ⟨"b"⟩]
        ([⟨"a", "b", 0, "t"⟩].filter fun c => c.moveType == "t") = [p1, p2] := by
      rcases hm : createMoveDataMap [⟨"a"⟩, ⟨"b"⟩]
          ([⟨"a", "b", 0, "t"⟩].filter fun c => c.moveType == "t") with
        - | ⟨p1, - | ⟨p2, - | ⟨p3, rest⟩⟩⟩ <;>
        rw [hm] at hkeys <;> first | exact ⟨p1, p2, hm⟩ | simp at hkeys
    obtain ⟨k1, d1⟩ := p1
    obtain ⟨k2, d2⟩ := p2
    rw [hmd] at hkeys
    simp only [List.map_cons, List.map_nil, List.cons.injEq, and_true] at hkeys
    obtain ⟨hk1, hk2⟩ := hkeys
    subst hk1
    subst hk2
    have hlk1 : (createMoveDataMap [⟨"a"⟩, ⟨"b"⟩]
        ([⟨"a", "b", 0, "t"⟩].filter fun c => c.moveType == "t")).lookup "a" = some d1 := by
      rw [hmd]
      simp
    have hlk2 : (createMoveDataMap [⟨"a"⟩, ⟨"b"⟩]
        ([⟨"a", "b", 0, "t"⟩].filter fun c => c.moveType == "t")).lookup "b" = some d2 := by
      rw [hmd]
      simp [List.lookup_cons]
    have hf1 := cmdm_lookup_fields _ _ _ _ hlk1
    have hf2 := cmdm_lookup_fields _ _ _ _ hlk2
    have hw1 : d1.wins = 1/2 := by
      rw [hf1.2.1]
      norm_num +decide [refWins, bothKnown, hasId, winIncr, List.filter_cons]
    have ht1 : d1.total = 1 := by
      rw [hf1.2.2]
      norm_num +decide [refTotal, bothKnown, hasId, totalIncr, List.filter_cons]
    have hw2 : d2.wins = 1/2 := by
      rw [hf2.2.1]
      norm_num +decide [refWins, bothKnown, hasId, winIncr, List.filter_cons]
    have ht2 : d2.total = 1 := by
      rw [hf2.2.2]
      norm_num +decide [refTotal, bothKnown, hasId, totalIncr, List.filter_cons]
    have hseed : seedScore d1 = seedScore d2 := by
      unfold seedScore
      rw [hw1, ht1, hw2, ht2]
    have hnd := cmdm_keys_nodup [(⟨"a"⟩ : Move), ⟨"b"⟩]
      ([⟨"a", "b", 0, "t"⟩].filter fun c => c.moveType == "t")
    have hbtl1 := iterative_lookup _ hnd (hmd ▸ List.mem_cons_self ("a", d1) [("b", d2)])
    have hbtl2 := iterative_lookup _ hnd
      (hmd ▸ List.mem_cons_of_mem _ (List.mem_cons_self ("b", d2) []))
    have hne0 : ¬([(⟨"a", "b", 0, "t"⟩ : Choice)].filter fun c => c.moveType == "t").length
        = 0 := by decide
    refine ⟨Standing.mk d1.move.id
        (jsOrHalf ((calculateBTLIterative (createMoveDataMap [⟨"a"⟩, ⟨"b"⟩]
          ([⟨"a", "b", 0, "t"⟩].filter fun c => c.moveType == "t"))).lookup "a"))
        d1.wins d1.total (if d1.total > 0 then d1.wins / (d1.total : Rat) else 0)
        (calculateConfidence d1.total),
      Standing.mk d2.move.id
        (jsOrHalf ((calculateBTLIterative (createMoveDataMap [⟨"a"⟩, ⟨"b"⟩]
          ([⟨"a", "b", 0, "t"⟩].filter fun c => c.moveType == "t"))).lookup "b"))
        d2.wins d2.total (if d2.total > 0 then d2.wins / (d2.total : Rat) else 0)
        (calculateConfidence d2.total), ?_, hw1, ht1, hw2, ht2, ?_⟩
    · unfold calculateBTLScores
      rw [if_neg hne0]
      dsimp only
      rw [hmd]
      rfl
    · dsimp only
      rw [hbtl1, hbtl2, hseed]

/-- C7 witness: the tie-increment clause applied to a concrete single tie
event between the known items "a" and "b". -/
theorem c7_witness :
    ((0 : Nat) ≠ 1 ∧ (0 : Nat) ≠ 2 ∧ hasId [(⟨"a"⟩ : Move), ⟨"b"⟩] "a" = true ∧
      hasId [(⟨"a"⟩ : Move), ⟨"b"⟩] "b" = true ∧ ("a" : String) ≠ "b") ∧
    winsOf (createMoveDataMap [⟨"a"⟩, ⟨"b"⟩] ([] ++ [⟨"a", "b", 0, "t"⟩])) "a" =
      winsOf (createMoveDataMap [⟨"a"⟩, ⟨"b"⟩] []) "a" + 1/2 := by
  refine ⟨⟨by decide, by decide, rfl, rfl, by decide⟩, ?_⟩
  exact (c7_spec.1 [⟨"a"⟩, ⟨"b"⟩] [] ⟨"a", "b", 0, "t"⟩ (by decide) (by decide)
    rfl rfl (by decide)).1

/-! ### Claim C2 -/

lemma specSeed_eq : specSeed = seedScore := rfl

/-- C2 (amended): every standing's strength score equals the per-item
reference formula that matches the code: seed = winRate · (0.5 + 0.5 ·
confidence(total)) for items with data and 0.5 otherwise, max and min taken
over the seed scores of **all** entries of the move-data map (total = 0
entries included), every entry rescaled to (seed − min)/(max − min) when
max > min, and a final value of exactly 0 reported as 0.5 (the `|| 0.5`
fallback). -/
theorem c2_spec (moves : List Move) (userChoices : List Choice) (mt : String)
    (s : Standing) (hs : s ∈ calculateBTLScores moves userChoices mt) :
    ∃ d : MoveEntry,
      (createMoveDataMap moves (userChoices.filter fun c => c.moveType == mt)).lookup s.id
        = some d ∧
      s.btlScore = specScoreAmended
        (createMoveDataMap moves (userChoices.filter fun c => c.moveType == mt)) d := by
  obtain ⟨d, hlk, -, -, hbtl, -, -⟩ := mem_calculateBTLScores hs
  refine ⟨d, hlk, ?_⟩
  have hmem := mem_of_lookup_eq_some hlk
  have hnd := cmdm_keys_nodup moves (userChoices.filter fun c => c.moveType == mt)
  rw [hbtl, iterative_lookup _ hnd hmem]
  unfold specScoreAmended
  rw [specSeed_eq]
  obtain ⟨q, rest, hqr⟩ : ∃ q rest, createMoveDataMap moves
      (userChoices.filter fun c => c.moveType == mt) = q :: rest := by
    rcases hm : createMoveDataMap moves
        (userChoices.filter fun c => c.moveType == mt) with - | ⟨q, rest⟩
    · rw [hm] at hmem
      exact absurd hmem (List.not_mem_nil _)
    · exact ⟨q, rest, rfl⟩
  rw [hqr]
  simp only [List.map_cons]
  rw [maximum_cons_eq_foldl, minimum_cons_eq_foldl]
  rfl

/-- C2 counterexample: on the input where "a" beat "b" once, the losing
standing's rescaled score is exactly 0, which the claimed two-step reference
keeps as 0 — but the code's `btlScores[move.id] || 0.5` fallback reports it as
0.5, so `calculateBTLScores` differs from the claimed reference. -/
theorem c2_counterexample :
    ∃ (s : Standing) (d : MoveEntry),
      s ∈ calculateBTLScores [⟨"a"⟩, ⟨"b"⟩] [⟨"a", "b", 1, "t"⟩] "t" ∧
      (createMoveDataMap [⟨"a"⟩, ⟨"b"⟩]
        ([⟨"a", "b", 1, "t"⟩].filter fun c => c.moveType == "t")).lookup s.id = some d ∧
      s.btlScore ≠ specScoreClaimed
        (createMoveDataMap [⟨"a"⟩, ⟨"b"⟩]
          ([⟨"a", "b", 1, "t"⟩].filter fun c => c.moveType == "t")) d := by
  have hkeys : (createMoveDataMap [⟨"a"⟩, ⟨"b"⟩]
      ([⟨"a", "b", 1, "t"⟩].filter fun c => c.moveType == "t")).map Prod.fst =
      ["a", "b"] := by
    unfold createMoveDataMap
    rw [tallyFold_keys]
    decide
  obtain ⟨p1, p2, hmd⟩ : ∃ p1 p2, createMoveDataMap [⟨"a"⟩, ⟨"b"⟩]
      ([⟨"a", "b", 1, "t"⟩].filter fun c => c.moveType == "t") = [p1, p2] := by
    rcases hm : createMoveDataMap [⟨"a"⟩, ⟨"b"⟩]
        ([⟨"a", "b", 1, "t"⟩].filter fun c => c.moveType == "t") with
      - | ⟨p1, - | ⟨p2, - | ⟨p3, rest⟩⟩⟩ <;>
      rw [hm] at hkeys <;> first | exact ⟨p1, p2, hm⟩ | simp at hkeys
  obtain ⟨k1, d1⟩ := p1
  obtain ⟨k2, d2⟩ := p2
  rw [hmd] at hkeys
  simp only [List.map_cons, List.map_nil, List.cons.injEq, and_true] at hkeys
  obtain ⟨hk1, hk2⟩ := hkeys
  subst hk1
  subst hk2
  have hlk1 : (createMoveDataMap [⟨"a"⟩, ⟨"b"⟩]
      ([⟨"a", "b", 1, "t"⟩].filter fun c => c.moveType == "t")).lookup "a" = some d1 := by
    rw [hmd]
    simp
  have hlk2 : (createMoveDataMap [⟨"a"⟩, ⟨"b"⟩]
      ([⟨"a", "b", 1, "t"⟩].filter fun c => c.moveType == "t")).lookup "b" = some d2 := by
    rw [hmd]
    simp [List.lookup_cons]
  have hf1 := cmdm_lookup_fields _ _ _ _ hlk1
  have hf2 := cmdm_lookup_fields _ _ _ _ hlk2
  have hw1 : d1.wins = 1 := by
    rw [hf1.2.1]
    norm_num +decide [refWins, bothKnown, hasId, winIncr, List.filter_cons]
  have ht1 : d1.total = 1 := by
    rw [hf1.2.2]
    norm_num +decide [refTotal, bothKnown, hasId, totalIncr, List.filter_cons]
  have hw2 : d2.wins = 0 := by
    rw [hf2.2.1]
    norm_num +decide [refWins, bothKnown, hasId, winIncr, List.filter_cons]
  have ht2 : d2.total = 1 := by
    rw [hf2.2.2]
    norm_num +decide [refTotal, bothKnown, hasId, totalIncr, List.filter_cons]
  have hid2 : d2.move.id = "b" := by rw [hf2.1]
  have hc1 : 0 ≤ calculateConfidence 1 := calculateConfidence_nonneg 1
  have hE1 : seedScore d1 = 0.5 + 0.5 * calculateConfidence 1 := by
    unfold seedScore
    rw [hw1, ht1]
    norm_num
  have hE2 : seedScore d2 = 0 := by
    unfold seedScore
    rw [hw2, ht2]
    norm_num
  have hnd := cmdm_keys_nodup [(⟨"a"⟩ : Move), ⟨"b"⟩]
    ([⟨"a", "b", 1, "t"⟩].filter fun c => c.moveType == "t")
  have hbtl2 := iterative_lookup _ hnd
    (hmd ▸ List.mem_cons_of_mem _ (List.mem_cons_self ("b", d2) []))
  rw [hmd] at hbtl2
  simp only [List.map_cons, List.map_nil] at hbtl2
  rw [maximum_cons_eq_foldl, minimum_cons_eq_foldl] at hbtl2
  simp only [List.foldl_cons, List.foldl_nil] at hbtl2
  rw [hE1, hE2] at hbtl2
  have hmax : max (0.5 + 0.5 * calculateConfidence 1) (0 : ℝ) =
      0.5 + 0.5 * calculateConfidence 1 := max_eq_left (by linarith)
  have hmin : min (0.5 + 0.5 * calculateConfidence 1) (0 : ℝ) = 0 :=
    min_eq_right (by linarith)
  rw [hmax, hmin] at hbtl2
  have hpos : (0.5 + 0.5 * calculateConfidence 1 : ℝ) > 0 := by linarith
  rw [if_pos hpos] at hbtl2
  norm_num at hbtl2
  have hclaim : specScoreClaimed (createMoveDataMap [⟨"a"⟩, ⟨"b"⟩]
      ([⟨"a", "b", 1, "t"⟩].filter fun c => c.moveType == "t")) d2 = 0 := by
    unfold specScoreClaimed
    rw [hmd, if_neg (by rw [ht2]; norm_num)]
    simp only [List.filter_cons, List.filter_nil, ht1, ht2]
    norm_num
    rw [specSeed_eq, maximum_cons_eq_foldl, minimum_cons_eq_foldl]
    simp only [List.foldl_cons, List.foldl_nil]
    rw [hE1, hE2, hmax, hmin, if_pos hpos]
    norm_num
  refine ⟨Standing.mk d2.move.id
      (jsOrHalf ((calculateBTLIterative (createMoveDataMap [⟨"a"⟩, ⟨"b"⟩]
        ([⟨"a", "b", 1, "t"⟩].filter fun c => c.moveType == "t"))).lookup "b"))
      d2.wins d2.total (if d2.total > 0 then d2.wins / (d2.total : Rat) else 0)
      (calculateConfidence d2.total), d2, ?_, ?_, ?_⟩
  · unfold calculateBTLScores
    rw [if_neg (by decide)]
    dsimp only
    rw [hmd]
    exact List.mem_cons_of_mem _ (List.mem_cons_self _ [])
  · show (createMoveDataMap [⟨"a"⟩, ⟨"b"⟩]
        ([⟨"a", "b", 1, "t"⟩].filter fun c => c.moveType == "t")).lookup d2.move.id
      = some d2
    rw [hid2]
    exact hlk2
  · show jsOrHalf ((calculateBTLIterative (createMoveDataMap [⟨"a"⟩, ⟨"b"⟩]
        ([⟨"a", "b", 1, "t"⟩].filter fun c => c.moveType == "t"))).lookup "b") ≠
      specScoreClaimed (createMoveDataMap [⟨"a"⟩, ⟨"b"⟩]
        ([⟨"a", "b", 1, "t"⟩].filter fun c => c.moveType == "t")) d2
    rw [hclaim, hmd, hbtl2]
    unfold jsOrHalf
    norm_num

/-- C2 witness: the amended theorem applied to a concrete standing of the
one-event input ("a" beat "b"). -/
theorem c2_witness :
    ∃ s, s ∈ calculateBTLScores [⟨"a"⟩, ⟨"b"⟩] [⟨"a", "b", 1, "t"⟩] "t" ∧
      ∃ d, (createMoveDataMap [⟨"a"⟩, ⟨"b"⟩]
          ([⟨"a", "b", 1, "t"⟩].filter fun c => c.moveType == "t")).lookup s.id = some d ∧
        s.btlScore = specScoreAmended (createMoveDataMap [⟨"a"⟩, ⟨"b"⟩]
          ([⟨"a", "b", 1, "t"⟩].filter fun c => c.moveType == "t")) d := by
  have hne : ¬([(⟨"a", "b", 1, "t"⟩ : Choice)].filter fun c => c.moveType == "t").length
      = 0 := by decide
  have hsome : ((createMoveDataMap [⟨"a"⟩, ⟨"b"⟩]
      ([⟨"a", "b", 1, "t"⟩].filter fun c => c.moveType == "t")).lookup "a").isSome := by
    rw [cmdm_lookup_isSome_iff]
    exact ⟨by decide, ⟨"a", "b", 1, "t"⟩, by decide, Or.inl rfl⟩
  obtain ⟨d, hd⟩ := Option.isSome_iff_exists.1 hsome
  have hmem : ("a", d) ∈ createMoveDataMap [⟨"a"⟩, ⟨"b"⟩]
      ([⟨"a", "b", 1, "t"⟩].filter fun c => c.moveType == "t") :=
    mem_of_lookup_eq_some hd
  have hs : Standing.mk d.move.id
      (jsOrHalf ((calculateBTLIterative (createMoveDataMap [⟨"a"⟩, ⟨"b"⟩]
        ([⟨"a", "b", 1, "t"⟩].filter fun c => c.moveType == "t"))).lookup "a"))
      d.wins d.total (if d.total > 0 then d.wins / (d.total : Rat) else 0)
      (calculateConfidence d.total) ∈
        calculateBTLScores [⟨"a"⟩, ⟨"b"⟩] [⟨"a", "b", 1, "t"⟩] "t" := by
    unfold calculateBTLScores
    rw [if_neg hne]
    dsimp only
    exact List.mem_map.2 ⟨("a", d), hmem, rfl⟩
  exact ⟨_, hs, c2_spec [⟨"a"⟩, ⟨"b"⟩] [⟨"a", "b", 1, "t"⟩] "t" _ hs⟩

/-! ### Claim C10 -/

/-- C10: a known item appearing only in in-category events whose other
participant is unknown still receives a standing, with win 0, total 0,
win rate 0 and confidence 0; and its neutral 0.5 seed takes part in the
min-max rescale, so its final strength score can differ from 0.5 (shown on a
concrete input where it becomes 0.5 / maxSeed ≠ 0.5). -/
theorem c10_spec :
    (∀ (moves : List Move) (userChoices : List Choice) (mt k : String),
      hasId moves k = true →
      (∃ c ∈ userChoices.filter fun c => c.moveType == mt, k = c.move1 ∨ k = c.move2) →
      (∀ c ∈ userChoices.filter fun c => c.moveType == mt,
        (c.move1 = k → hasId moves c.move2 = false) ∧
        (c.move2 = k → hasId moves c.move1 = false)) →
      ∃ s ∈ calculateBTLScores moves userChoices mt,
        s.id = k ∧ s.userWins = 0 ∧ s.userTotal = 0 ∧ s.winRate = 0 ∧
          s.confidence = 0) ∧
    (∃ s ∈ calculateBTLScores [⟨"a"⟩, ⟨"b"⟩, ⟨"c"⟩]
        [⟨"a", "b", 1, "t"⟩, ⟨"c", "zz", 1, "t"⟩] "t",
      s.id = "c" ∧ s.btlScore ≠ 0.5) := by
  constructor
  · intro moves userChoices mt k hk hpart honly
    have hsome : ((createMoveDataMap moves
        (userChoices.filter fun c => c.moveType == mt)).lookup k).isSome := by
      rw [cmdm_lookup_isSome_iff]
      exact ⟨hk, hpart⟩
    obtain ⟨d, hd⟩ := Option.isSome_iff_exists.1 hsome
    have hfd := cmdm_lookup_fields _ _ _ _ hd
    have hterm : ∀ c ∈ (userChoices.filter fun c => c.moveType == mt).filter
        (bothKnown moves), c.move1 ≠ k ∧ c.move2 ≠ k := by
      intro c hcf
      rw [List.mem_filter] at hcf
      obtain ⟨hcmem, hbk⟩ := hcf
      unfold bothKnown at hbk
      rw [Bool.and_eq_true] at hbk
      constructor
      · intro he
        have hf := (honly c hcmem).1 he
        rw [hf] at hbk
        exact Bool.false_ne_true hbk.2
      · intro he
        have hf := (honly c hcmem).2 he
        rw [hf] at hbk
        exact Bool.false_ne_true hbk.1
    have hRW : refWins moves (userChoices.filter fun c => c.moveType == mt) k = 0 := by
      unfold refWins
      apply List.sum_eq_zero
      intro x hx
      obtain ⟨c, hcf, rfl⟩ := List.mem_map.1 hx
      obtain ⟨h1, h2⟩ := hterm c hcf
      unfold winIncr
      simp [h1, h2]
    have hRT : refTotal moves (userChoices.filter fun c => c.moveType == mt) k = 0 := by
      unfold refTotal
      apply List.sum_eq_zero
      intro x hx
      obtain ⟨c, hcf, rfl⟩ := List.mem_map.1 hx
      obtain ⟨h1, h2⟩ := hterm c hcf
      unfold totalIncr
      simp [h1, h2]
    have hne : ¬(userChoices.filter fun c => c.moveType == mt).length = 0 := by
      obtain ⟨c, hc, -⟩ := hpart
      intro h0
      rw [List.length_eq_zero] at h0
      rw [h0] at hc
      exact absurd hc (List.not_mem_nil c)
    refine ⟨Standing.mk d.move.id
        (jsOrHalf ((calculateBTLIterative (createMoveDataMap moves
          (userChoices.filter fun c => c.moveType == mt))).lookup k))
        d.wins d.total (if d.total > 0 then d.wins / (d.total : Rat) else 0)
        (calculateConfidence d.total), ?_, ?_, ?_, ?_, ?_, ?_⟩
    · unfold calculateBTLScores
      rw [if_neg hne]
      dsimp only
      exact List.mem_map.2 ⟨(k, d), mem_of_lookup_eq_some hd, rfl⟩
    · show d.move.id = k
      rw [hfd.1]
    · show d.wins = 0
      rw [hfd.2.1, hRW]
    · show d.total = 0
      rw [hfd.2.2, hRT]
    · show (if d.total > 0 then d.wins / (d.total : Rat) else 0) = 0
      rw [hfd.2.2, hRT]
      norm_num
    · show calculateConfidence d.total = 0
      rw [hfd.2.2, hRT]
      exact calculateConfidence_zero
  · have hkeys : (createMoveDataMap [⟨"a"⟩, ⟨"b"⟩, ⟨"c"⟩]
        ([⟨"a", "b", 1, "t"⟩, ⟨"c", "zz", 1, "t"⟩].filter
          fun c => c.moveType == "t")).map Prod.fst = ["a", "b", "c"] := by
      unfold createMoveDataMap
      rw [tallyFold_keys]
      decide
    obtain ⟨p1, p2, p3, hmd⟩ : ∃ p1 p2 p3, createMoveDataMap [⟨"a"⟩, ⟨"b"⟩, ⟨"c"⟩]
        ([⟨"a", "b", 1, "t"⟩, ⟨"c", "zz", 1, "t"⟩].filter fun c => c.moveType == "t") =
        [p1, p2, p3] := by
      rcases hm : createMoveDataMap [⟨"a"⟩, ⟨"b"⟩, ⟨"c"⟩]
          ([⟨"a", "b", 1, "t"⟩, ⟨"c", "zz", 1, "t"⟩].filter
            fun c => c.moveType == "t") with
        - | ⟨p1, - | ⟨p2, - | ⟨p3, - | ⟨p4, rest⟩⟩⟩⟩ <;>
        rw [hm] at hkeys <;> first | exact ⟨p1, p2, p3, hm⟩ | simp at hkeys
    obtain ⟨k1, d1⟩ := p1
    obtain ⟨k2, d2⟩ := p2
    obtain ⟨k3, d3⟩ := p3
    rw [hmd] at hkeys
    simp only [List.map_cons, List.map_nil, List.cons.injEq, and_true] at hkeys
    obtain ⟨hk1, hk2, hk3⟩ := hkeys
    subst hk1
    subst hk2
    subst hk3
    have hlk1 : (createMoveDataMap [⟨"a"⟩, ⟨"b"⟩, ⟨"c"⟩]
        ([⟨"a", "b", 1, "t"⟩, ⟨"c", "zz", 1, "t"⟩].filter
          fun c => c.moveType == "t")).lookup "a" = some d1 := by
      rw [hmd]
      simp
    have hlk3 : (createMoveDataMap [⟨"a"⟩, ⟨"b"⟩, ⟨"c"⟩]
        ([⟨"a", "b", 1, "t"⟩, ⟨"c", "zz", 1, "t"⟩].filter
          fun c => c.moveType == "t")).lookup "c" = some d3 := by
      rw [hmd]
      simp [List.lookup_cons]
    have hlk2 : (createMoveDataMap [⟨"a"⟩, ⟨"b"⟩, ⟨"c"⟩]
        ([⟨"a", "b", 1, "t"⟩, ⟨"c", "zz", 1, "t"⟩].filter
          fun c => c.moveType == "t")).lookup "b" = some d2 := by
      rw [hmd]
      simp [List.lookup_cons]
    have hf1 := cmdm_lookup_fields _ _ _ _ hlk1
    have hf2 := cmdm_lookup_fields _ _ _ _ hlk2
    have hf3 := cmdm_lookup_fields _ _ _ _ hlk3
    have hw1 : d1.wins = 1 := by
      rw [hf1.2.1]
      norm_num +decide [refWins, bothKnown, hasId, winIncr, List.filter_cons]
    have ht1 : d1.total = 1 := by
      rw [hf1.2.2]
      norm_num +decide [refTotal, bothKnown, hasId, totalIncr, List.filter_cons]
    have hw2 : d2.wins = 0 := by
      rw [hf2.2.1]
      norm_num +decide [refWins, bothKnown, hasId, winIncr, List.filter_cons]
    have ht2 : d2.total = 1 := by
      rw [hf2.2.2]
      norm_num +decide [refTotal, bothKnown, hasId, totalIncr, List.filter_cons]
    have ht3 : d3.total = 0 := by
      rw [hf3.2.2]
      norm_num +decide [refTotal, bothKnown, hasId, totalIncr, List.filter_cons]
    have hid3 : d3.move.id = "c" := by rw [hf3.1]
    have hc1 : 0 ≤ calculateConfidence 1 := calculateConfidence_nonneg 1
    have hc1lt : calculateConfidence 1 < 1 := calculateConfidence_lt_one 1 (le_refl 1)
    have hE1 : seedScore d1 = 0.5 + 0.5 * calculateConfidence 1 := by
      unfold seedScore
      rw [hw1, ht1]
      norm_num
    have hE2 : seedScore d2 = 0 := by
      unfold seedScore
      rw [hw2, ht2]
      norm_num
    have hE3 : seedScore d3 = 0.5 := by
      unfold seedScore
      rw [ht3]
      norm_num
    have hnd := cmdm_keys_nodup [(⟨"a"⟩ : Move), ⟨"b"⟩, ⟨"c"⟩]
      ([⟨"a", "b", 1, "t"⟩, ⟨"c", "zz", 1, "t"⟩].filter fun c => c.moveType == "t")
    have hbtl3 := iterative_lookup _ hnd
      (hmd ▸ List.mem_cons_of_mem _ (List.mem_cons_of_mem _
        (List.mem_cons_self ("c", d3) [])))
    rw [hmd] at hbtl3
    simp only [List.map_cons, List.map_nil] at hbtl3
    rw [maximum_cons_eq_foldl, minimum_cons_eq_foldl] at hbtl3
    simp only [List.foldl_cons, List.foldl_nil] at hbtl3
    rw [hE1, hE2, hE3] at hbtl3
    have hmax1 : max (0.5 + 0.5 * calculateConfidence 1) (0 : ℝ) =
        0.5 + 0.5 * calculateConfidence 1 := max_eq_left (by linarith)
    have hmax2 : max (0.5 + 0.5 * calculateConfidence 1) (0.5 : ℝ) =
        0.5 + 0.5 * calculateConfidence 1 := max_eq_left (by linarith)
    have hmin1 : min (0.5 + 0.5 * calculateConfidence 1) (0 : ℝ) = 0 :=
      min_eq_right (by linarith)
    have hmin2 : min (0 : ℝ) (0.5 : ℝ) = 0 := min_eq_left (by norm_num)
    rw [hmax1, hmax2, hmin1, hmin2] at hbtl3
    have hpos : (0.5 + 0.5 * calculateConfidence 1 : ℝ) > 0 := by linarith
    rw [if_pos hpos] at hbtl3
    refine ⟨Standing.mk d3.move.id
        (jsOrHalf ((calculateBTLIterative (createMoveDataMap [⟨"a"⟩, ⟨"b"⟩, ⟨"c"⟩]
          ([⟨"a", "b", 1, "t"⟩, ⟨"c", "zz", 1, "t"⟩].filter
            fun c => c.moveType == "t"))).lookup "c"))
        d3.wins d3.total (if d3.total > 0 then d3.wins / (d3.total : Rat) else 0)
        (calculateConfidence d3.total), ?_, ?_, ?_⟩
    · unfold calculateBTLScores
      rw [if_neg (by decide)]
      dsimp only
      rw [hmd]
      exact List.mem_cons_of_mem _ (List.mem_cons_of_mem _ (List.mem_cons_self _ []))
    · show d3.move.id = "c"
      exact hid3
    · show jsOrHalf ((calculateBTLIterative (createMoveDataMap [⟨"a"⟩, ⟨"b"⟩, ⟨"c"⟩]
          ([⟨"a", "b", 1, "t"⟩, ⟨"c", "zz", 1, "t"⟩].filter
            fun c => c.moveType == "t"))).lookup "c") ≠ 0.5
      rw [hmd, hbtl3]
      have hval : ((0.5 : ℝ) - 0) / (0.5 + 0.5 * calculateConfidence 1 - 0) ≠ 0 :=
        div_ne_zero (by norm_num) (by linarith)
      show (if ((0.5 : ℝ) - 0) / (0.5 + 0.5 * calculateConfidence 1 - 0) = 0 then (0.5 : ℝ)
          else ((0.5 : ℝ) - 0) / (0.5 + 0.5 * calculateConfidence 1 - 0)) ≠ 0.5
      rw [if_neg hval]
      intro heq
      rw [div_eq_iff (by linarith : (0.5 + 0.5 * calculateConfidence 1 - 0 : ℝ) ≠ 0)]
        at heq
      nlinarith

/-- C10 witness: the theorem's general clause applied to the concrete input
where known item "c" appears only against the unknown id "zz". -/
theorem c10_witness :
    (hasId [(⟨"a"⟩ : Move), ⟨"b"⟩, ⟨"c"⟩] "c" = true ∧
      (∃ c ∈ [(⟨"a", "b", 1, "t"⟩ : Choice), ⟨"c", "zz", 1, "t"⟩].filter
          fun c => c.moveType == "t",
        ("c" : String) = c.move1 ∨ ("c" : String) = c.move2) ∧
      (∀ c ∈ [(⟨"a", "b", 1, "t"⟩ : Choice), ⟨"c", "zz", 1, "t"⟩].filter
          fun c => c.moveType == "t",
        (c.move1 = "c" → hasId [(⟨"a"⟩ : Move), ⟨"b"⟩, ⟨"c"⟩] c.move2 = false) ∧
        (c.move2 = "c" → hasId [(⟨"a"⟩ : Move), ⟨"b"⟩, ⟨"c"⟩] c.move1 = false))) ∧
    (∃ s ∈ calculateBTLScores [⟨"a"⟩, ⟨"b"⟩, ⟨"c"⟩]
        [⟨"a", "b", 1, "t"⟩, ⟨"c", "zz", 1, "t"⟩] "t",
      s.id = "c" ∧ s.userWins = 0 ∧ s.userTotal = 0 ∧ s.winRate = 0 ∧
        s.confidence = 0) := by
  refine ⟨⟨rfl, ⟨⟨"c", "zz", 1, "t"⟩, by decide, Or.inl rfl⟩, by decide⟩, ?_⟩
  exact c10_spec.1 [⟨"a"⟩, ⟨"b"⟩, ⟨"c"⟩] [⟨"a", "b", 1, "t"⟩, ⟨"c", "zz", 1, "t"⟩]
    "t" "c" rfl ⟨⟨"c", "zz", 1, "t"⟩, by decide, Or.inl rfl⟩ (by decide)

end SmashMoves
